import Mathlib

/-!
# d3d12SDKLayers-CrashOnPresentRepro: the frame loop of `main.cpp`

A shallow embedding of `src/main.cpp` and the properties of its frame loop.

* External calls (Win32, DXGI, D3D12) are inputs: every `HRESULT` a call hands
  back is a field of an environment record, and every call the loop issues is
  appended to a trace of `Call` values.
* `Run` is the sequential function; `Machine` is the same loop as a small-step
  transition system interleaved with the GPU, which updates the fence value.
* Unsigned machine integers are naturals reduced modulo `2 ^ 64`.
-/

namespace D3D12Repro

/-! ## Status codes and thrown values -/

/-- A Windows status code: a signed 32-bit integer, failing when negative. -/
abbrev HRESULT := Int

/-- The `FAILED` test of the Windows headers: `hr < 0`. -/
def FAILED (hr : HRESULT) : Bool := decide (hr < 0)

/-- Success. -/
def S_OK : HRESULT := 0

/-- The generic failure code `0x80004005`. -/
def E_FAIL : HRESULT := -2147467259

/-- The device-removed code `0x887A0005`. -/
def DXGI_ERROR_DEVICE_REMOVED : HRESULT := -2005270523

/-- Values that can leave `Run` by a `throw`: the two the file throws itself
(`com_exception`, lines 10-25, and `std::runtime_error`, line 95, a
`std::exception` whose `what()` is the text stored in it) and `nonStd`, any
value that is not a `std::exception` (caught by `catch (...)` only). -/
inductive Thrown where
  | com_exception (result : HRESULT)
  | runtime_error (message : String)
  | nonStd
  deriving DecidableEq, Repr

/-- One upper-case hexadecimal digit. -/
def hexDigit (n : Nat) : Char :=
  if n < 10 then Char.ofNat (48 + n) else Char.ofNat (55 + n)

/-- The `%08X` conversion of `static_cast<unsigned int>(hr)`. -/
def hex8 (hr : HRESULT) : String :=
  let u : Nat := (hr % 4294967296).toNat
  String.mk ((List.range 8).reverse.map fun k => hexDigit (u / 16 ^ k % 16))

/-- The text of `com_exception::what()` (lines 16-21); `ErrorMessage` stands for
the system lookup `_com_error(result).ErrorMessage()`, whose text is taken to
fit the 1024-character buffer. -/
def com_exception_what (ErrorMessage : HRESULT → String) (result : HRESULT) : String :=
  ">>> Failure with HRESULT of " ++ hex8 result ++ ", error message: " ++
    ErrorMessage result ++ "\n"

/-- The status code an error carries: only `com_exception` has the `result`
member. -/
def Thrown.statusCode : Thrown → Option HRESULT
  | .com_exception result => some result
  | .runtime_error _ => none
  | .nonStd => none

/-- The `what()` text of a thrown `std::exception`; `none` for a value that is
not one. -/
def Thrown.what (ErrorMessage : HRESULT → String) : Thrown → Option String
  | .com_exception result => some (com_exception_what ErrorMessage result)
  | .runtime_error message => some message
  | .nonStd => none

/-- Lines 27-34: throw `com_exception(hr)` when `hr` is a failure.  The
debugger break before the throw does not change the control flow. -/
def ThrowIfFailed (hr : HRESULT) : Except Thrown Unit :=
  if FAILED hr then .error (.com_exception hr) else .ok ()

/-! ## Calls issued by the frame loop -/

/-- The two resource states the loop uses. -/
inductive D3D12_RESOURCE_STATES where
  | PRESENT
  | RENDER_TARGET
  deriving DecidableEq, Repr

/-- A transition barrier (lines 184-190): `pResource` is the index `i` of
`backbuffers[i]`; type `TRANSITION`, flags `NONE` and all subresources are the
same in every barrier of the file. -/
structure D3D12_RESOURCE_BARRIER where
  pResource : Nat
  StateBefore : D3D12_RESOURCE_STATES
  StateAfter : D3D12_RESOURCE_STATES
  deriving DecidableEq, Repr

/-- A decimal literal `digits / 10 ^ scale`, for the `FLOAT` literals of the
clear colour. -/
structure Decimal where
  digits : Nat
  scale : Nat
  deriving DecidableEq, Repr

/-- A call the loop makes on the device, the command list, the queue, the
swapchain or the fence, with its arguments. -/
inductive Call where
  /-- `swapchain->GetCurrentBackBufferIndex()`, with the index it returned. -/
  | GetCurrentBackBufferIndex (index : Nat)
  /-- `commandAllocators[slot]->Reset()`. -/
  | AllocatorReset (slot : Nat)
  /-- `commandList->Reset(commandAllocators[slot].Get(), nullptr)`. -/
  | CommandListReset (slot : Nat)
  /-- `commandList->ResourceBarrier(NumBarriers, &barrier)`. -/
  | ResourceBarrier (NumBarriers : Nat) (barrier : D3D12_RESOURCE_BARRIER)
  /-- `commandList->ClearRenderTargetView(rt, color, NumRects, nullptr)`. -/
  | ClearRenderTargetView (rt : Nat) (color : List Decimal) (NumRects : Nat)
  /-- `commandList->OMSetRenderTargets(Num, &rt, SingleRange, pDepthStencil)`. -/
  | OMSetRenderTargets (NumRenderTargets : Nat) (rt : Nat) (SingleRange : Bool)
      (pDepthStencil : Option Nat)
  /-- `commandList->Close()`. -/
  | Close
  /-- `queue->ExecuteCommandLists(NumCommandLists, &cl)` with `cl` the one
  shared command list. -/
  | ExecuteCommandLists (NumCommandLists : Nat)
  /-- `swapchain->Present(SyncInterval, Flags)`. -/
  | Present (SyncInterval : Nat) (Flags : Nat)
  /-- `queue->Signal(fence.Get(), Value)`. -/
  | Signal (Value : Nat)
  /-- `fence->SetEventOnCompletion(Value, hEvent)`; `none` is `nullptr`. -/
  | SetEventOnCompletion (Value : Nat) (hEvent : Option Nat)
  deriving DecidableEq, Repr

/-- The number of back buffers: `std::size(backbuffers)` (line 130). -/
def BufferCount : Nat := 2

/-- Increment of a `uint64_t`: `++fenceValue`. -/
def incr64 (v : Nat) : Nat := (v + 1) % 2 ^ 64

/-- The descriptor handle `rtvHeapBase + (size_t)descRtvSz * i` of lines 163
and 193, in 64-bit `size_t` arithmetic. -/
def rtvHandle (rtvHeapBase descRtvSz i : Nat) : Nat :=
  (rtvHeapBase + descRtvSz * i % 2 ^ 64) % 2 ^ 64

/-- The array `clearColor` of line 194: `0.7f, 1.0f, 0.7f, 1.0f`. -/
def clearColor : List Decimal := [⟨7, 1⟩, ⟨10, 1⟩, ⟨7, 1⟩, ⟨10, 1⟩]

/-- What the device returns during one iteration of the loop: the `HRESULT` of
each call that has one. -/
structure FrameEnv where
  hrAllocatorReset : HRESULT
  hrCommandListReset : HRESULT
  hrClose : HRESULT
  hrPresent : HRESULT
  hrSignal : HRESULT
  hrSetEventOnCompletion : HRESULT
  deriving DecidableEq, Repr

/-- The variables of `Run` that live across iterations, the swapchain's
current back-buffer index, and the calls issued so far. -/
structure LoopState where
  fenceValue : Nat
  backBufferIndex : Nat
  trace : List Call
  deriving DecidableEq, Repr

/-- Append one call to the trace. -/
def LoopState.log (s : LoopState) (c : Call) : LoopState :=
  { s with trace := s.trace ++ [c] }

/-- The swapchain after a `Present` that returned `hr`: a flip-model swapchain
moves to the next of its `BufferCount` buffers on a successful present, and
only then. -/
def presentIndex (hr : HRESULT) (index : Nat) : Nat :=
  if FAILED hr then index else (index + 1) % BufferCount

/-- One iteration of the loop body, lines 180-209.  The result is the state
after the last statement executed and the value thrown, if any. -/
def frame (rtvHeapBase descRtvSz : Nat) (env : FrameEnv) (s : LoopState) :
    LoopState × Option Thrown :=
  -- 180
  let curFrame := s.backBufferIndex
  let s := s.log (.GetCurrentBackBufferIndex curFrame)
  -- 181
  let s := s.log (.AllocatorReset curFrame)
  match ThrowIfFailed env.hrAllocatorReset with
  | .error e => (s, some e)
  | .ok _ =>
  -- 182: the HRESULT of this call is dropped
  let s := s.log (.CommandListReset curFrame)
  -- 184-191
  let barrier : D3D12_RESOURCE_BARRIER :=
    { pResource := curFrame, StateBefore := .PRESENT, StateAfter := .RENDER_TARGET }
  let s := s.log (.ResourceBarrier 1 barrier)
  -- 193-196
  let rt := rtvHandle rtvHeapBase descRtvSz curFrame
  let s := s.log (.ClearRenderTargetView rt clearColor 0)
  let s := s.log (.OMSetRenderTargets 1 rt false none)
  -- 198-200
  let barrier : D3D12_RESOURCE_BARRIER :=
    { barrier with StateBefore := .RENDER_TARGET, StateAfter := .PRESENT }
  let s := s.log (.ResourceBarrier 1 barrier)
  -- 202
  let s := s.log .Close
  match ThrowIfFailed env.hrClose with
  | .error e => (s, some e)
  | .ok _ =>
  -- 203-204
  let s := s.log (.ExecuteCommandLists 1)
  -- 206
  let s := s.log (.Present 1 0)
  let s := { s with backBufferIndex := presentIndex env.hrPresent s.backBufferIndex }
  match ThrowIfFailed env.hrPresent with
  | .error e => (s, some e)
  | .ok _ =>
  -- 208
  let s := { s with fenceValue := incr64 s.fenceValue }
  let s := s.log (.Signal s.fenceValue)
  match ThrowIfFailed env.hrSignal with
  | .error e => (s, some e)
  | .ok _ =>
  -- 209
  let s := s.log (.SetEventOnCompletion s.fenceValue none)
  match ThrowIfFailed env.hrSetEventOnCompletion with
  | .error e => (s, some e)
  | .ok _ => (s, none)

/-- The loop of lines 179-210.  `ShouldQuit()` returns `false` once for every
entry of the list and `true` when the list is used up. -/
def loop (rtvHeapBase descRtvSz : Nat) : List FrameEnv → LoopState → LoopState × Option Thrown
  | [], s => (s, none)
  | env :: rest, s =>
    match frame rtvHeapBase descRtvSz env s with
    | (s', some e) => (s', some e)
    | (s', none) => loop rtvHeapBase descRtvSz rest s'

/-! ## Start-up (lines 57-177) -/

/-- The part of `DXGI_ADAPTER_DESC` the program reads. -/
structure DXGI_ADAPTER_DESC where
  Description : String
  DedicatedVideoMemory : Nat
  deriving DecidableEq, Repr

/-- One adapter handed out by `factory->EnumAdapters1(i, &pCurAdapter)`, with
what `pCurAdapter->GetDesc` returns for it. -/
structure AdapterEnum where
  pAdapter : Nat
  hrGetDesc : HRESULT
  desc : DXGI_ADAPTER_DESC
  deriving DecidableEq, Repr

/-- The loop of lines 110-117 over the adapters the factory enumerates before it
answers `DXGI_ERROR_NOT_FOUND`.  The state is the pair of the variables
`adapter` (`none` is `nullptr`) and `adapterDesc`. -/
def selectAdapter : List AdapterEnum → Option Nat × DXGI_ADAPTER_DESC →
    Except Thrown (Option Nat × DXGI_ADAPTER_DESC)
  | [], sel => .ok sel
  | cur :: rest, (adapter, adapterDesc) =>
    match ThrowIfFailed cur.hrGetDesc with
    | .error e => .error e
    | .ok _ =>
      let curAdapterDesc := cur.desc
      if adapter == none ||
          decide (curAdapterDesc.DedicatedVideoMemory > adapterDesc.DedicatedVideoMemory) then
        selectAdapter rest (some cur.pAdapter, curAdapterDesc)
      else
        selectAdapter rest (adapter, adapterDesc)

/-- The loop of lines 161-168 over the back-buffer indices. -/
def createFrameResources (hrGetBuffer hrCreateCommandAllocator : Nat → HRESULT) :
    List Nat → Except Thrown Unit
  | [] => .ok ()
  | i :: rest =>
    match ThrowIfFailed (hrGetBuffer i) with
    | .error e => .error e
    | .ok _ =>
      match ThrowIfFailed (hrCreateCommandAllocator i) with
      | .error e => .error e
      | .ok _ => createFrameResources hrGetBuffer hrCreateCommandAllocator rest

/-- What the platform returns during start-up. -/
structure InitEnv where
  /-- The result of `CreateWindowEx`; `none` is `nullptr`. -/
  hwnd : Option Nat
  hrD3D12GetDebugInterface : HRESULT
  hrCreateDXGIFactory2 : HRESULT
  adapters : List AdapterEnum
  /-- The content of the variable `adapterDesc` before it is first assigned. -/
  adapterDesc0 : DXGI_ADAPTER_DESC
  hrD3D12CreateDevice : HRESULT
  hrCreateCommandQueue : HRESULT
  hrCreateSwapChainForHwnd : HRESULT
  hrMakeWindowAssociation : HRESULT
  hrAs : HRESULT
  hrCreateDescriptorHeap : HRESULT
  rtvHeapBase : Nat
  descRtvSz : Nat
  hrGetBuffer : Nat → HRESULT
  hrCreateCommandAllocator : Nat → HRESULT
  hrCreateCommandList : HRESULT
  hrClose : HRESULT
  hrCreateFence : HRESULT

/-- Lines 57-177: everything `Run` does before the loop.  On success the
result is the adapter chosen (with its description). -/
def startup (env : InitEnv) : Except Thrown (Option Nat × DXGI_ADAPTER_DESC) :=
  -- 81-96
  if env.hwnd == none then .error (.runtime_error "Window creation failed") else
  -- 100
  match ThrowIfFailed env.hrD3D12GetDebugInterface with
  | .error e => .error e
  | .ok _ =>
  -- 104
  match ThrowIfFailed env.hrCreateDXGIFactory2 with
  | .error e => .error e
  | .ok _ =>
  -- 107-117
  match selectAdapter env.adapters (none, env.adapterDesc0) with
  | .error e => .error e
  | .ok sel =>
  -- 120
  match ThrowIfFailed env.hrD3D12CreateDevice with
  | .error e => .error e
  | .ok _ =>
  -- 128
  match ThrowIfFailed env.hrCreateCommandQueue with
  | .error e => .error e
  | .ok _ =>
  -- 144-148
  match ThrowIfFailed env.hrCreateSwapChainForHwnd with
  | .error e => .error e
  | .ok _ =>
  match ThrowIfFailed env.hrMakeWindowAssociation with
  | .error e => .error e
  | .ok _ =>
  match ThrowIfFailed env.hrAs with
  | .error e => .error e
  | .ok _ =>
  -- 156
  match ThrowIfFailed env.hrCreateDescriptorHeap with
  | .error e => .error e
  | .ok _ =>
  -- 161-168
  match createFrameResources env.hrGetBuffer env.hrCreateCommandAllocator
      (List.range BufferCount) with
  | .error e => .error e
  | .ok _ =>
  -- 171-173
  match ThrowIfFailed env.hrCreateCommandList with
  | .error e => .error e
  | .ok _ =>
  match ThrowIfFailed env.hrClose with
  | .error e => .error e
  | .ok _ =>
  -- 175-177
  match ThrowIfFailed env.hrCreateFence with
  | .error e => .error e
  | .ok _ => .ok sel

/-- Everything the outside world supplies to one run: the start-up results and
one `FrameEnv` for each iteration before the quit message arrives. -/
structure Env where
  init : InitEnv
  frames : List FrameEnv

/-- The state in which the loop is entered: `fenceValue = 0` (line 175), a new
swapchain showing buffer 0, nothing issued yet. -/
def LoopState.initial : LoopState := { fenceValue := 0, backBufferIndex := 0, trace := [] }

/-- The function `Run` (lines 57-211): the final loop state and the value
thrown, if any. -/
def Run (env : Env) : LoopState × Option Thrown :=
  match startup env.init with
  | .error e => (LoopState.initial, some e)
  | .ok _ => loop env.init.rtvHeapBase env.init.descRtvSz env.frames LoopState.initial

/-- What the process leaves behind: its exit code and the lines written to
`std::cerr`. -/
structure ProcessResult where
  exitCode : Int
  cerr : List String
  deriving DecidableEq, Repr

/-- The `try`/`catch` of `main` (lines 214-221), given how `Run` ended. -/
def main_try (ErrorMessage : HRESULT → String) (thrown : Option Thrown) : ProcessResult :=
  match thrown with
  | none => { exitCode := 0, cerr := [] }
  | some e =>
    match e.what ErrorMessage with
    | some text => { exitCode := 0, cerr := [text] }
    | none => { exitCode := 0, cerr := ["Unknown error"] }

/-- The function `main` (lines 213-222). -/
def main (ErrorMessage : HRESULT → String) (env : Env) : ProcessResult :=
  main_try ErrorMessage (Run env).2

/-! ## Reading a trace -/

/-- The indices returned by `GetCurrentBackBufferIndex`, in order. -/
def curFrames : List Call → List Nat
  | [] => []
  | .GetCurrentBackBufferIndex i :: rest => i :: curFrames rest
  | _ :: rest => curFrames rest

/-- The values passed to `queue->Signal`, in order. -/
def signalValues : List Call → List Nat
  | [] => []
  | .Signal v :: rest => v :: signalValues rest
  | _ :: rest => signalValues rest

/-- The values passed to `fence->SetEventOnCompletion`, in order. -/
def waitValues : List Call → List Nat
  | [] => []
  | .SetEventOnCompletion v _ :: rest => v :: waitValues rest
  | _ :: rest => waitValues rest

/-- The barriers recorded, in order. -/
def barriers : List Call → List D3D12_RESOURCE_BARRIER
  | [] => []
  | .ResourceBarrier _ b :: rest => b :: barriers rest
  | _ :: rest => barriers rest

/-- The number of `Present` calls issued. -/
def presentCount : List Call → Nat
  | [] => 0
  | .Present _ _ :: rest => presentCount rest + 1
  | _ :: rest => presentCount rest

/-- The calls of lines 180-209 in source order, for the index `i` and the
signaled value `v`.  An iteration issues a prefix of this list, up to the
first checked call that fails. -/
def callsOfFrame (rtvHeapBase descRtvSz i v : Nat) : List Call :=
  [.GetCurrentBackBufferIndex i,
   .AllocatorReset i,
   .CommandListReset i,
   .ResourceBarrier 1 ⟨i, .PRESENT, .RENDER_TARGET⟩,
   .ClearRenderTargetView (rtvHandle rtvHeapBase descRtvSz i) clearColor 0,
   .OMSetRenderTargets 1 (rtvHandle rtvHeapBase descRtvSz i) false none,
   .ResourceBarrier 1 ⟨i, .RENDER_TARGET, .PRESENT⟩,
   .Close,
   .ExecuteCommandLists 1,
   .Present 1 0,
   .Signal v,
   .SetEventOnCompletion v none]

/-- The calls one iteration issued: the trace after it without the trace
before it. -/
def issuedBy (rtvHeapBase descRtvSz : Nat) (env : FrameEnv) (s : LoopState) : List Call :=
  (frame rtvHeapBase descRtvSz env s).1.trace.drop s.trace.length

/-- The state of a resource after a transition barrier is executed on it:
`none` when the barrier names another state than the one the resource is in. -/
def applyBarrier (b : D3D12_RESOURCE_BARRIER) (state : D3D12_RESOURCE_STATES) :
    Option D3D12_RESOURCE_STATES :=
  if b.StateBefore = state then some b.StateAfter else none

/-- The state of surface `i` after the barriers of a list are executed in
order, each barrier acting on the surface it names. -/
def surfaceStateAfter (i : Nat) : List D3D12_RESOURCE_BARRIER → D3D12_RESOURCE_STATES →
    Option D3D12_RESOURCE_STATES
  | [], state => some state
  | b :: rest, state =>
    if b.pResource = i then
      match applyBarrier b state with
      | some state' => surfaceStateAfter i rest state'
      | none => none
    else surfaceStateAfter i rest state

/-- The status codes one iteration passes to `ThrowIfFailed`. -/
def FrameEnv.checkedResults (env : FrameEnv) : List HRESULT :=
  [env.hrAllocatorReset, env.hrClose, env.hrPresent, env.hrSignal, env.hrSetEventOnCompletion]

/-- The status codes the start-up passes to `ThrowIfFailed`. -/
def InitEnv.checkedResults (env : InitEnv) : List HRESULT :=
  [env.hrD3D12GetDebugInterface, env.hrCreateDXGIFactory2] ++
    env.adapters.map (fun a => a.hrGetDesc) ++
    [env.hrD3D12CreateDevice, env.hrCreateCommandQueue, env.hrCreateSwapChainForHwnd,
     env.hrMakeWindowAssociation, env.hrAs, env.hrCreateDescriptorHeap] ++
    (List.range BufferCount).flatMap
      (fun i => [env.hrGetBuffer i, env.hrCreateCommandAllocator i]) ++
    [env.hrCreateCommandList, env.hrClose, env.hrCreateFence]

/-- The status codes a run passes to `ThrowIfFailed`. -/
def Env.checkedResults (env : Env) : List HRESULT :=
  env.init.checkedResults ++ env.frames.flatMap FrameEnv.checkedResults

/-- An iteration in which every call whose `HRESULT` is checked succeeds. -/
def FrameEnv.ok (env : FrameEnv) : Bool :=
  !FAILED env.hrAllocatorReset && !FAILED env.hrClose && !FAILED env.hrPresent &&
    !FAILED env.hrSignal && !FAILED env.hrSetEventOnCompletion

/-- An iteration in which every call succeeds. -/
def okFrame : FrameEnv :=
  { hrAllocatorReset := S_OK, hrCommandListReset := S_OK, hrClose := S_OK,
    hrPresent := S_OK, hrSignal := S_OK, hrSetEventOnCompletion := S_OK }

/-- A start-up in which every call succeeds and one adapter is found. -/
def okInit : InitEnv :=
  { hwnd := some 1, hrD3D12GetDebugInterface := S_OK, hrCreateDXGIFactory2 := S_OK,
    adapters := [{ pAdapter := 0, hrGetDesc := S_OK,
                   desc := { Description := "GPU", DedicatedVideoMemory := 8589934592 } }],
    adapterDesc0 := { Description := "", DedicatedVideoMemory := 0 },
    hrD3D12CreateDevice := S_OK, hrCreateCommandQueue := S_OK,
    hrCreateSwapChainForHwnd := S_OK, hrMakeWindowAssociation := S_OK, hrAs := S_OK,
    hrCreateDescriptorHeap := S_OK, rtvHeapBase := 4096, descRtvSz := 32,
    hrGetBuffer := fun _ => S_OK, hrCreateCommandAllocator := fun _ => S_OK,
    hrCreateCommandList := S_OK, hrClose := S_OK, hrCreateFence := S_OK }

/-! ## The loop as a transition system, interleaved with the GPU

The CPU executes one statement of the loop per step; between any two CPU steps
the GPU may move the fence.  The CPU side is lines 179-210; the two places
where the platform decides, the GPU's update of the fence and the return of
the wait of line 209, are the definitions `gpuMayReach` and `waitMayReturn`. -/

namespace Machine

/-- The statement the CPU executes next. -/
inductive Pc where
  /-- Line 179: the test `!ShouldQuit()`. -/
  | loopHead
  /-- Line 180. -/
  | acquire
  /-- Line 181. -/
  | allocatorReset
  /-- Line 182. -/
  | commandListReset
  /-- Lines 184-191. -/
  | barrierToRenderTarget
  /-- Lines 193-195. -/
  | clear
  /-- Line 196. -/
  | setRenderTargets
  /-- Lines 198-200. -/
  | barrierToPresent
  /-- Line 202. -/
  | close
  /-- Lines 203-204. -/
  | execute
  /-- Line 206. -/
  | present
  /-- Line 208. -/
  | signal
  /-- Line 209. -/
  | wait
  /-- The loop was left by the quit message. -/
  | returned
  /-- The loop was left by a `throw`. -/
  | thrown (e : Thrown)
  deriving DecidableEq, Repr

/-- The state of CPU and fence.  `submitted` is a history variable: the pairs
`(slot, value)` of the allocator recorded into and the counter value signaled
after its submission, newest first. -/
structure State where
  pc : Pc
  curFrame : Nat
  loop : LoopState
  completed : Nat
  submitted : List (Nat × Nat)
  deriving DecidableEq, Repr

/-- What can happen next. -/
inductive Event where
  /-- The CPU evaluates `ShouldQuit()`, which returns `b`. -/
  | quit (b : Bool)
  /-- The CPU executes the statement at `pc`; the call in it returns `hr`
  (unused by the statements whose call returns nothing). -/
  | cpu (hr : HRESULT)
  /-- The GPU raises the completed value of the fence to `value`. -/
  | gpu (value : Nat)
  deriving DecidableEq, Repr

/-- The state when the loop is entered: the fence was created with value 0. -/
def start : State :=
  { pc := .loopHead, curFrame := 0, loop := LoopState.initial, completed := 0, submitted := [] }

/-- Continue at `next`, or leave by the exception `ThrowIfFailed hr` throws. -/
def checked (s : State) (hr : HRESULT) (next : Pc) : State :=
  match ThrowIfFailed hr with
  | .error e => { s with pc := .thrown e }
  | .ok _ => { s with pc := next }

/-- Issue the call `c` and continue at `next`. -/
def issue (s : State) (c : Call) (next : Pc) : State :=
  { s with loop := s.loop.log c, pc := next }

/-- Modelled from the spec: the GPU side of the fence, which is not code of
this file.  The GPU updates the fence to a counter value that was signaled
(section 3) and readers never see the value go down (section 5): the fence may
move to `value` when `value` was signaled and is not below the value the fence
holds. -/
def gpuMayReach (s : State) (value : Nat) : Bool :=
  decide (s.completed ≤ value) && (s.submitted.map Prod.snd).contains value

/-- Modelled from the spec: the return of
`fence->SetEventOnCompletion(value, nullptr)`, a call into the platform.  The
wait of line 209 is given a null wait target and does not block (sections 4.4
and 9): the call may return whatever value the fence holds. -/
def waitMayReturn (_s : State) : Bool := true

/-- One step: `none` when the event cannot happen in state `s`. -/
def step (rtvHeapBase descRtvSz : Nat) (s : State) : Event → Option State
  | .quit b =>
    if s.pc = .loopHead then some { s with pc := if b then .returned else .acquire } else none
  | .gpu value =>
    if gpuMayReach s value then some { s with completed := value } else none
  | .cpu hr =>
    match s.pc with
    | .loopHead => none
    | .returned => none
    | .thrown _ => none
    | .acquire =>
      some (issue { s with curFrame := s.loop.backBufferIndex }
        (.GetCurrentBackBufferIndex s.loop.backBufferIndex) .allocatorReset)
    | .allocatorReset =>
      some (checked (issue s (.AllocatorReset s.curFrame) .allocatorReset) hr .commandListReset)
    | .commandListReset =>
      some (issue s (.CommandListReset s.curFrame) .barrierToRenderTarget)
    | .barrierToRenderTarget =>
      some (issue s (.ResourceBarrier 1
        { pResource := s.curFrame, StateBefore := .PRESENT, StateAfter := .RENDER_TARGET }) .clear)
    | .clear =>
      some (issue s (.ClearRenderTargetView (rtvHandle rtvHeapBase descRtvSz s.curFrame)
        clearColor 0) .setRenderTargets)
    | .setRenderTargets =>
      some (issue s (.OMSetRenderTargets 1 (rtvHandle rtvHeapBase descRtvSz s.curFrame)
        false none) .barrierToPresent)
    | .barrierToPresent =>
      some (issue s (.ResourceBarrier 1
        { pResource := s.curFrame, StateBefore := .RENDER_TARGET, StateAfter := .PRESENT }) .close)
    | .close => some (checked (issue s .Close .close) hr .execute)
    | .execute => some (issue s (.ExecuteCommandLists 1) .present)
    | .present =>
      let s := issue s (.Present 1 0) .present
      let s := { s with loop :=
        { s.loop with backBufferIndex := presentIndex hr s.loop.backBufferIndex } }
      some (checked s hr .signal)
    | .signal =>
      let s := { s with loop := { s.loop with fenceValue := incr64 s.loop.fenceValue } }
      let s := issue s (.Signal s.loop.fenceValue) .signal
      if FAILED hr then some (checked s hr .wait)
      else some (checked { s with submitted := (s.curFrame, s.loop.fenceValue) :: s.submitted }
        hr .wait)
    | .wait =>
      if waitMayReturn s then
        some (checked (issue s (.SetEventOnCompletion s.loop.fenceValue none) .wait) hr .loopHead)
      else none

/-- Run a list of events from a state; `none` when one of them cannot happen. -/
def exec (rtvHeapBase descRtvSz : Nat) : State → List Event → Option State
  | s, [] => some s
  | s, ev :: rest =>
    match step rtvHeapBase descRtvSz s ev with
    | none => none
    | some s' => exec rtvHeapBase descRtvSz s' rest

/-- The counter value signaled after the last submission recorded into
allocator `slot`, or 0 when the slot has not been used. -/
def lastSignalFor (slot : Nat) : List (Nat × Nat) → Nat
  | [] => 0
  | (i, v) :: rest => if i = slot then v else lastSignalFor slot rest

/-- The counter value signaled two submissions ago, or 0 when there have been
fewer than two. -/
def signaledTwoAgo : List (Nat × Nat) → Nat
  | _ :: (_, v) :: _ => v
  | _ => 0

/-- Consecutive submissions went to different slots, newest first. -/
def alternates : List (Nat × Nat) → Prop
  | [] => True
  | [_] => True
  | a :: b :: rest => a.1 ≠ b.1 ∧ alternates (b :: rest)

/-- The newest submission, if any, did not go to slot `i`. -/
def newestNot (i : Nat) : List (Nat × Nat) → Prop
  | [] => True
  | a :: _ => a.1 ≠ i

/-- The invariant that carries the rotation argument: slots are 0 or 1,
consecutive submissions alternate, and the slot in use is not the one of the
newest submission. -/
def SlotInv (s : State) : Prop :=
  (∀ e ∈ s.submitted, e.1 < BufferCount) ∧ alternates s.submitted ∧
  match s.pc with
  | .thrown _ => True
  | .returned => True
  | .loopHead =>
    s.loop.backBufferIndex < BufferCount ∧ newestNot s.loop.backBufferIndex s.submitted
  | .acquire =>
    s.loop.backBufferIndex < BufferCount ∧ newestNot s.loop.backBufferIndex s.submitted
  | .signal => s.curFrame < BufferCount ∧ newestNot s.curFrame s.submitted ∧
      s.loop.backBufferIndex = (s.curFrame + 1) % BufferCount
  | .wait => s.curFrame < BufferCount ∧
      s.loop.backBufferIndex = (s.curFrame + 1) % BufferCount ∧
      ∃ v rest, s.submitted = (s.curFrame, v) :: rest
  | _ => s.curFrame < BufferCount ∧ newestNot s.curFrame s.submitted ∧
      s.loop.backBufferIndex = s.curFrame

/-- The events of one iteration in which the GPU reaches `target` before the
CPU calls the wait. -/
def frameEvents (env : FrameEnv) (target : Nat) : List Event :=
  [.quit false, .cpu S_OK, .cpu env.hrAllocatorReset, .cpu env.hrCommandListReset,
   .cpu S_OK, .cpu S_OK, .cpu S_OK, .cpu S_OK, .cpu env.hrClose, .cpu S_OK,
   .cpu env.hrPresent, .cpu env.hrSignal, .gpu target, .cpu env.hrSetEventOnCompletion]

/-- The events of one iteration in which the GPU does nothing. -/
def frameEventsIdleGpu (env : FrameEnv) : List Event :=
  [.quit false, .cpu S_OK, .cpu env.hrAllocatorReset, .cpu env.hrCommandListReset,
   .cpu S_OK, .cpu S_OK, .cpu S_OK, .cpu S_OK, .cpu env.hrClose, .cpu S_OK,
   .cpu env.hrPresent, .cpu env.hrSignal, .cpu env.hrSetEventOnCompletion]

/-- Two completed iterations in which the GPU keeps up, then the quit test and
the index read of a third: the CPU stands at the allocator reset. -/
def eventsToThirdReset : List Event :=
  frameEvents okFrame 1 ++ frameEvents okFrame 2 ++ [Event.quit false, Event.cpu S_OK]

/-- The state at the allocator reset of the third iteration when the fence
stands at `completed`: slot 0 was signaled with 1, slot 1 with 2. -/
def stateAtThirdReset (completed : Nat) : State :=
  { pc := .allocatorReset, curFrame := 0,
    loop := { fenceValue := 2, backBufferIndex := 0,
              trace := callsOfFrame 4096 32 0 1 ++ callsOfFrame 4096 32 1 2 ++
                [.GetCurrentBackBufferIndex 0] },
    completed := completed, submitted := [(1, 2), (0, 1)] }

end Machine

/-! ## Traces -/

theorem curFrames_append (a b : List Call) : curFrames (a ++ b) = curFrames a ++ curFrames b := by
  induction a with
  | nil => rfl
  | cons c rest ih => cases c <;> simp [curFrames, ih]

theorem signalValues_append (a b : List Call) :
    signalValues (a ++ b) = signalValues a ++ signalValues b := by
  induction a with
  | nil => rfl
  | cons c rest ih => cases c <;> simp [signalValues, ih]

theorem waitValues_append (a b : List Call) :
    waitValues (a ++ b) = waitValues a ++ waitValues b := by
  induction a with
  | nil => rfl
  | cons c rest ih => cases c <;> simp [waitValues, ih]

theorem presentCount_append (a b : List Call) :
    presentCount (a ++ b) = presentCount a + presentCount b := by
  induction a with
  | nil => simp [presentCount]
  | cons c rest ih =>
    cases c <;> simp [presentCount, ih]
    omega

/-! ## One iteration -/

/-- The calls of a completed iteration on index `i` that signals `v`. -/
theorem frame_ok (b d : Nat) (env : FrameEnv) (s : LoopState) (h : env.ok = true) :
    frame b d env s =
      ({ fenceValue := incr64 s.fenceValue,
         backBufferIndex := (s.backBufferIndex + 1) % BufferCount,
         trace := s.trace ++
          [.GetCurrentBackBufferIndex s.backBufferIndex,
           .AllocatorReset s.backBufferIndex,
           .CommandListReset s.backBufferIndex,
           .ResourceBarrier 1 ⟨s.backBufferIndex, .PRESENT, .RENDER_TARGET⟩,
           .ClearRenderTargetView (rtvHandle b d s.backBufferIndex) clearColor 0,
           .OMSetRenderTargets 1 (rtvHandle b d s.backBufferIndex) false none,
           .ResourceBarrier 1 ⟨s.backBufferIndex, .RENDER_TARGET, .PRESENT⟩,
           .Close,
           .ExecuteCommandLists 1,
           .Present 1 0,
           .Signal (incr64 s.fenceValue),
           .SetEventOnCompletion (incr64 s.fenceValue) none] }, none) := by
  simp only [FrameEnv.ok, Bool.and_eq_true, Bool.not_eq_true'] at h
  obtain ⟨⟨⟨⟨h1, h2⟩, h3⟩, h4⟩, h5⟩ := h
  simp [frame, ThrowIfFailed, h1, h2, h3, h4, h5, LoopState.log, presentIndex]

/-- Every way one iteration can end: at the first checked call that fails, with
that call's status code thrown and nothing issued after it, or completed. -/
theorem frame_cases (b d : Nat) (env : FrameEnv) (s : LoopState) :
    (FAILED env.hrAllocatorReset = true ∧
      frame b d env s =
        ({ s with trace := s.trace ++
            (callsOfFrame b d s.backBufferIndex (incr64 s.fenceValue)).take 2 },
          some (.com_exception env.hrAllocatorReset))) ∨
    (FAILED env.hrAllocatorReset = false ∧ FAILED env.hrClose = true ∧
      frame b d env s =
        ({ s with trace := s.trace ++
            (callsOfFrame b d s.backBufferIndex (incr64 s.fenceValue)).take 8 },
          some (.com_exception env.hrClose))) ∨
    (FAILED env.hrAllocatorReset = false ∧ FAILED env.hrClose = false ∧
      FAILED env.hrPresent = true ∧
      frame b d env s =
        ({ s with trace := s.trace ++
            (callsOfFrame b d s.backBufferIndex (incr64 s.fenceValue)).take 10 },
          some (.com_exception env.hrPresent))) ∨
    (FAILED env.hrAllocatorReset = false ∧ FAILED env.hrClose = false ∧
      FAILED env.hrPresent = false ∧ FAILED env.hrSignal = true ∧
      frame b d env s =
        ({ fenceValue := incr64 s.fenceValue,
           backBufferIndex := (s.backBufferIndex + 1) % BufferCount,
           trace := s.trace ++
            (callsOfFrame b d s.backBufferIndex (incr64 s.fenceValue)).take 11 },
          some (.com_exception env.hrSignal))) ∨
    (FAILED env.hrAllocatorReset = false ∧ FAILED env.hrClose = false ∧
      FAILED env.hrPresent = false ∧ FAILED env.hrSignal = false ∧
      FAILED env.hrSetEventOnCompletion = true ∧
      frame b d env s =
        ({ fenceValue := incr64 s.fenceValue,
           backBufferIndex := (s.backBufferIndex + 1) % BufferCount,
           trace := s.trace ++ callsOfFrame b d s.backBufferIndex (incr64 s.fenceValue) },
          some (.com_exception env.hrSetEventOnCompletion))) ∨
    (env.ok = true ∧
      frame b d env s =
        ({ fenceValue := incr64 s.fenceValue,
           backBufferIndex := (s.backBufferIndex + 1) % BufferCount,
           trace := s.trace ++ callsOfFrame b d s.backBufferIndex (incr64 s.fenceValue) },
          none)) := by
  cases h1 : FAILED env.hrAllocatorReset
  · cases h2 : FAILED env.hrClose
    · cases h3 : FAILED env.hrPresent
      · cases h4 : FAILED env.hrSignal
        · cases h5 : FAILED env.hrSetEventOnCompletion
          · have hok : env.ok = true := by simp [FrameEnv.ok, h1, h2, h3, h4, h5]
            simp [hok, frame_ok b d env s hok, callsOfFrame]
          · simp [frame, ThrowIfFailed, h1, h2, h3, h4, h5, LoopState.log, presentIndex,
              callsOfFrame]
        · simp [frame, ThrowIfFailed, h1, h2, h3, h4, LoopState.log, presentIndex,
            callsOfFrame]
      · simp [frame, ThrowIfFailed, h1, h2, h3, LoopState.log, presentIndex, callsOfFrame]
    · simp [frame, ThrowIfFailed, h1, h2, LoopState.log, callsOfFrame]
  · simp [frame, ThrowIfFailed, h1, LoopState.log, callsOfFrame]

/-- An iteration ends without a throw exactly when all checked calls succeed. -/
theorem frame_none_iff (b d : Nat) (env : FrameEnv) (s : LoopState) :
    (frame b d env s).2 = none ↔ env.ok = true := by
  rcases frame_cases b d env s with h | h | h | h | h | h
  · simp [h.2, FrameEnv.ok, h.1]
  · simp [h.2.2, FrameEnv.ok, h.2.1]
  · simp [h.2.2.2, FrameEnv.ok, h.2.2.1]
  · simp [h.2.2.2.2, FrameEnv.ok, h.2.2.2.1]
  · simp [h.2.2.2.2.2, FrameEnv.ok, h.2.2.2.2.1]
  · simp [h.2, h.1]

/-! ## The loop -/

theorem incr64_lt (v : Nat) : incr64 v < 2 ^ 64 := by
  unfold incr64
  exact Nat.mod_lt _ (by norm_num)

theorem incr64_add (v k : Nat) : (incr64 v + k) % 2 ^ 64 = (v + (k + 1)) % 2 ^ 64 := by
  unfold incr64
  omega

theorem range_succ_map (g : Nat → Nat) (n : Nat) :
    (List.range (n + 1)).map g = g 0 :: (List.range n).map (fun k => g (k + 1)) := by
  rw [List.range_succ_eq_map]
  simp [List.map_map, Function.comp_def]

/-- A run of iterations that all succeed: the final state and what the trace
holds. -/
theorem loop_ok (b d : Nat) (frames : List FrameEnv) (s : LoopState)
    (hok : ∀ f ∈ frames, f.ok = true) (hb : s.backBufferIndex < BufferCount)
    (hv : s.fenceValue < 2 ^ 64) :
    (loop b d frames s).2 = none ∧
    (loop b d frames s).1.fenceValue = (s.fenceValue + frames.length) % 2 ^ 64 ∧
    (loop b d frames s).1.backBufferIndex = (s.backBufferIndex + frames.length) % BufferCount ∧
    ∃ T, (loop b d frames s).1.trace = s.trace ++ T ∧
      curFrames T =
        (List.range frames.length).map (fun k => (s.backBufferIndex + k) % BufferCount) ∧
      signalValues T =
        (List.range frames.length).map (fun k => (s.fenceValue + (k + 1)) % 2 ^ 64) ∧
      waitValues T = signalValues T ∧
      presentCount T = frames.length := by
  induction frames generalizing s with
  | nil =>
    refine ⟨rfl, ?_, ?_, [], ?_, rfl, rfl, rfl, rfl⟩
    · simp only [loop, List.length_nil, Nat.add_zero]
      exact (Nat.mod_eq_of_lt hv).symm
    · simp only [loop, List.length_nil, Nat.add_zero]
      exact (Nat.mod_eq_of_lt hb).symm
    · simp [loop]
  | cons f rest ih =>
    have hf : f.ok = true := hok f (List.mem_cons_self _ _)
    have hrest : ∀ g ∈ rest, g.ok = true := fun g hg => hok g (List.mem_cons_of_mem _ hg)
    have hstep := frame_ok b d f s hf
    have hb' : (s.backBufferIndex + 1) % BufferCount < BufferCount :=
      Nat.mod_lt _ (by decide)
    obtain ⟨h1, h2, h3, T, h4, h5, h6, h7, h8⟩ :=
      ih ⟨incr64 s.fenceValue, (s.backBufferIndex + 1) % BufferCount,
          s.trace ++ callsOfFrame b d s.backBufferIndex (incr64 s.fenceValue)⟩
        hrest hb' (incr64_lt _)
    have hloop : loop b d (f :: rest) s =
        loop b d rest ⟨incr64 s.fenceValue, (s.backBufferIndex + 1) % BufferCount,
          s.trace ++ callsOfFrame b d s.backBufferIndex (incr64 s.fenceValue)⟩ := by
      simp [loop, hstep, callsOfFrame]
    rw [hloop]
    refine ⟨h1, ?_, ?_, callsOfFrame b d s.backBufferIndex (incr64 s.fenceValue) ++ T,
      ?_, ?_, ?_, ?_, ?_⟩
    · rw [h2]
      simp only [List.length_cons]
      exact incr64_add _ _
    · rw [h3]
      simp only [List.length_cons, BufferCount]
      omega
    · rw [h4]
      simp [List.append_assoc]
    · rw [curFrames_append, h5, List.length_cons, range_succ_map]
      simp only [callsOfFrame, curFrames, List.cons_append, List.nil_append, Nat.add_zero,
        List.cons.injEq]
      refine ⟨(Nat.mod_eq_of_lt hb).symm, ?_⟩
      apply List.map_congr_left
      intro k _
      simp only [BufferCount]
      omega
    · rw [signalValues_append, h6, List.length_cons, range_succ_map]
      simp only [callsOfFrame, signalValues, List.cons_append, List.nil_append, Nat.zero_add,
        List.cons.injEq]
      refine ⟨by simp [incr64], ?_⟩
      apply List.map_congr_left
      intro k _
      rw [incr64_add]
    · rw [waitValues_append, signalValues_append, h7]
      simp [callsOfFrame, signalValues, waitValues]
    · rw [presentCount_append, h8]
      simp [callsOfFrame, presentCount]
      omega

/-- A throw in an iteration ends the loop: the iterations after it do not run. -/
theorem loop_stops (b d : Nat) (f : FrameEnv) (rest : List FrameEnv) (s : LoopState)
    (e : Thrown) (h : (frame b d f s).2 = some e) :
    loop b d (f :: rest) s = frame b d f s := by
  rcases hfr : frame b d f s with ⟨s', t⟩
  rw [hfr] at h
  simp only at h
  subst h
  simp [loop, hfr]

/-- A completed iteration hands its state to the next one. -/
theorem loop_continues (b d : Nat) (f : FrameEnv) (rest : List FrameEnv) (s : LoopState)
    (h : (frame b d f s).2 = none) :
    loop b d (f :: rest) s = loop b d rest (frame b d f s).1 := by
  rcases hfr : frame b d f s with ⟨s', t⟩
  rw [hfr] at h
  simp only at h
  subst h
  simp [loop, hfr]

/-- The trace of any run of the loop, whatever the device returns: the indices
read alternate, a present is issued only after its index was read, and every
wait carries the value of the signal issued just before it. -/
theorem loop_trace (b d : Nat) (frames : List FrameEnv) (s : LoopState)
    (hb : s.backBufferIndex < BufferCount) :
    ∃ T n r, (loop b d frames s).1.trace = s.trace ++ T ∧
      curFrames T = (List.range n).map (fun k => (s.backBufferIndex + k) % BufferCount) ∧
      presentCount T ≤ n ∧
      signalValues T = waitValues T ++ r := by
  induction frames generalizing s with
  | nil => exact ⟨[], 0, [], by simp [loop], rfl, Nat.le_refl _, rfl⟩
  | cons f rest ih =>
    have hb0 : (s.backBufferIndex + 0) % BufferCount = s.backBufferIndex :=
      Nat.mod_eq_of_lt hb
    have hr1 : (List.range 1).map (fun k => (s.backBufferIndex + k) % BufferCount) =
        [s.backBufferIndex] := by
      rw [show List.range 1 = [0] from rfl]
      simp only [List.map]
      rw [hb0]
    rcases frame_cases b d f s with h | h | h | h | h | h
    · rw [loop_stops b d f rest s _ (by rw [h.2]), h.2]
      exact ⟨_, 1, [], rfl, by rw [hr1]; simp [callsOfFrame, curFrames],
        by simp [callsOfFrame, presentCount], by simp [callsOfFrame, signalValues, waitValues]⟩
    · rw [loop_stops b d f rest s _ (by rw [h.2.2]), h.2.2]
      exact ⟨_, 1, [], rfl, by rw [hr1]; simp [callsOfFrame, curFrames],
        by simp [callsOfFrame, presentCount], by simp [callsOfFrame, signalValues, waitValues]⟩
    · rw [loop_stops b d f rest s _ (by rw [h.2.2.2]), h.2.2.2]
      exact ⟨_, 1, [], rfl, by rw [hr1]; simp [callsOfFrame, curFrames],
        by simp [callsOfFrame, presentCount], by simp [callsOfFrame, signalValues, waitValues]⟩
    · rw [loop_stops b d f rest s _ (by rw [h.2.2.2.2]), h.2.2.2.2]
      exact ⟨_, 1, [incr64 s.fenceValue], rfl, by rw [hr1]; simp [callsOfFrame, curFrames],
        by simp [callsOfFrame, presentCount], by simp [callsOfFrame, signalValues, waitValues]⟩
    · rw [loop_stops b d f rest s _ (by rw [h.2.2.2.2.2]), h.2.2.2.2.2]
      exact ⟨_, 1, [], rfl, by rw [hr1]; simp [callsOfFrame, curFrames],
        by simp [callsOfFrame, presentCount], by simp [callsOfFrame, signalValues, waitValues]⟩
    · rw [loop_continues b d f rest s (by rw [h.2]), h.2]
      have hb' : (s.backBufferIndex + 1) % BufferCount < BufferCount :=
        Nat.mod_lt _ (by decide)
      obtain ⟨T, n, r, h1, h2, h3, h4⟩ :=
        ih ⟨incr64 s.fenceValue, (s.backBufferIndex + 1) % BufferCount,
          s.trace ++ callsOfFrame b d s.backBufferIndex (incr64 s.fenceValue)⟩ hb'
      refine ⟨callsOfFrame b d s.backBufferIndex (incr64 s.fenceValue) ++ T, n + 1, r,
        ?_, ?_, ?_, ?_⟩
      · rw [h1]
        simp [List.append_assoc]
      · rw [curFrames_append, h2, range_succ_map]
        simp only [callsOfFrame, curFrames, List.cons_append, List.nil_append,
          List.cons.injEq]
        refine ⟨hb0.symm, ?_⟩
        apply List.map_congr_left
        intro k _
        simp only [BufferCount]
        omega
      · rw [presentCount_append]
        simp [callsOfFrame, presentCount]
        omega
      · rw [signalValues_append, waitValues_append, h4]
        simp [callsOfFrame, signalValues, waitValues]

/-- The value the loop throws is the status code of a checked call that
failed. -/
theorem loop_thrown (b d : Nat) (frames : List FrameEnv) (s : LoopState) (e : Thrown)
    (h : (loop b d frames s).2 = some e) :
    ∃ f ∈ frames, ∃ hr ∈ [f.hrAllocatorReset, f.hrClose, f.hrPresent, f.hrSignal,
      f.hrSetEventOnCompletion], FAILED hr = true ∧ e = .com_exception hr := by
  induction frames generalizing s with
  | nil => simp [loop] at h
  | cons f rest ih =>
    rcases frame_cases b d f s with c | c | c | c | c | c
    · rw [loop_stops b d f rest s _ (by rw [c.2]), c.2] at h
      exact ⟨f, List.mem_cons_self _ _, f.hrAllocatorReset, by simp, c.1, by simpa using h.symm⟩
    · rw [loop_stops b d f rest s _ (by rw [c.2.2]), c.2.2] at h
      exact ⟨f, List.mem_cons_self _ _, f.hrClose, by simp, c.2.1, by simpa using h.symm⟩
    · rw [loop_stops b d f rest s _ (by rw [c.2.2.2]), c.2.2.2] at h
      exact ⟨f, List.mem_cons_self _ _, f.hrPresent, by simp, c.2.2.1, by simpa using h.symm⟩
    · rw [loop_stops b d f rest s _ (by rw [c.2.2.2.2]), c.2.2.2.2] at h
      exact ⟨f, List.mem_cons_self _ _, f.hrSignal, by simp, c.2.2.2.1,
        by simpa using h.symm⟩
    · rw [loop_stops b d f rest s _ (by rw [c.2.2.2.2.2]), c.2.2.2.2.2] at h
      exact ⟨f, List.mem_cons_self _ _, f.hrSetEventOnCompletion, by simp, c.2.2.2.2.1,
        by simpa using h.symm⟩
    · rw [loop_continues b d f rest s (by rw [c.2])] at h
      obtain ⟨g, hg, hr, hhr, h1, h2⟩ := ih _ h
      exact ⟨g, List.mem_cons_of_mem _ hg, hr, hhr, h1, h2⟩

/-! ## The function `Run` -/

theorem Run_of_startup_ok (env : Env) (sel : Option Nat × DXGI_ADAPTER_DESC)
    (h : startup env.init = .ok sel) :
    Run env = loop env.init.rtvHeapBase env.init.descRtvSz env.frames LoopState.initial := by
  simp [Run, h]

theorem Run_of_startup_error (env : Env) (e : Thrown) (h : startup env.init = .error e) :
    Run env = (LoopState.initial, some e) := by
  simp [Run, h]

theorem issuedBy_eq (b d : Nat) (env : FrameEnv) (s : LoopState) (added : List Call)
    (h : (frame b d env s).1.trace = s.trace ++ added) : issuedBy b d env s = added := by
  simp [issuedBy, h]

theorem okInit_startup : ∃ sel, startup okInit = .ok sel := ⟨_, rfl⟩

theorem okFrames_ok (n : Nat) : ∀ f ∈ List.replicate n okFrame, f.ok = true := by
  intro f hf
  rw [(List.mem_replicate.mp hf).2]
  rfl

/-- The state after the first `j` iterations is the state a run of just those
iterations ends in: the rest of the loop continues from it. -/
theorem loop_append (b d : Nat) (first rest : List FrameEnv) (s : LoopState)
    (h : (loop b d first s).2 = none) :
    loop b d (first ++ rest) s = loop b d rest (loop b d first s).1 := by
  induction first generalizing s with
  | nil => simp [loop]
  | cons f fs ih =>
    cases hfr : (frame b d f s).2 with
    | none =>
      rw [List.cons_append, loop_continues b d f _ s hfr]
      rw [loop_continues b d f fs s hfr] at h ⊢
      exact ih _ h
    | some e =>
      rw [loop_stops b d f fs s e hfr, hfr] at h
      cases h

/-- The state after the first `j` iterations of a run is the end state of the
run cut after `j` iterations: the run goes on from there. -/
theorem Run_after_prefix (init : InitEnv) (frames : List FrameEnv) (j : Nat)
    (sel : Option Nat × DXGI_ADAPTER_DESC) (hsel : startup init = .ok sel)
    (hnone : (Run ⟨init, frames.take j⟩).2 = none) :
    Run ⟨init, frames⟩ =
      loop init.rtvHeapBase init.descRtvSz (frames.drop j) (Run ⟨init, frames.take j⟩).1 := by
  rw [Run_of_startup_ok ⟨init, frames.take j⟩ sel hsel] at hnone ⊢
  rw [Run_of_startup_ok ⟨init, frames⟩ sel hsel]
  show loop init.rtvHeapBase init.descRtvSz frames LoopState.initial = _
  conv_lhs => rw [← List.take_append_drop j frames]
  exact loop_append _ _ _ _ _ hnone

/-! ## The completion counter -/

/-- Past the range of the 64-bit counter: after `2 ^ 64` completed iterations
`fenceValue` would be 0 again, after `2 ^ 64 - 1` of them it is
`2 ^ 64 - 1`. -/
theorem fenceValue_wraps :
    (Run ⟨okInit, List.replicate (2 ^ 64) okFrame⟩).2 = none ∧
    (Run ⟨okInit, List.replicate (2 ^ 64) okFrame⟩).1.fenceValue = 0 ∧
    (Run ⟨okInit, List.replicate (2 ^ 64) okFrame⟩).1.fenceValue ≠
      (List.replicate (2 ^ 64) okFrame).length ∧
    (Run ⟨okInit, List.replicate (2 ^ 64 - 1) okFrame⟩).2 = none ∧
    (Run ⟨okInit, List.replicate (2 ^ 64 - 1) okFrame⟩).1.fenceValue = 2 ^ 64 - 1 ∧
    (Run ⟨okInit, List.replicate (2 ^ 64) okFrame⟩).1.fenceValue <
      (Run ⟨okInit, List.replicate (2 ^ 64 - 1) okFrame⟩).1.fenceValue := by
  obtain ⟨sel, hsel⟩ := okInit_startup
  have h0 : LoopState.initial.backBufferIndex < BufferCount := by decide
  have hv : LoopState.initial.fenceValue < 2 ^ 64 := by
    show 0 < 2 ^ 64
    norm_num
  have hA := loop_ok okInit.rtvHeapBase okInit.descRtvSz (List.replicate (2 ^ 64) okFrame)
    LoopState.initial (okFrames_ok _) h0 hv
  have hB := loop_ok okInit.rtvHeapBase okInit.descRtvSz (List.replicate (2 ^ 64 - 1) okFrame)
    LoopState.initial (okFrames_ok _) h0 hv
  have hA2 : (Run ⟨okInit, List.replicate (2 ^ 64) okFrame⟩).1.fenceValue = 0 := by
    rw [Run_of_startup_ok ⟨okInit, List.replicate (2 ^ 64) okFrame⟩ sel hsel, hA.2.1,
      List.length_replicate]
    show (0 + 2 ^ 64) % 2 ^ 64 = 0
    norm_num
  have hB2 : (Run ⟨okInit, List.replicate (2 ^ 64 - 1) okFrame⟩).1.fenceValue =
      2 ^ 64 - 1 := by
    rw [Run_of_startup_ok ⟨okInit, List.replicate (2 ^ 64 - 1) okFrame⟩ sel hsel, hB.2.1,
      List.length_replicate]
    show (0 + (2 ^ 64 - 1)) % 2 ^ 64 = 2 ^ 64 - 1
    norm_num
  refine ⟨?_, hA2, ?_, ?_, hB2, ?_⟩
  · rw [Run_of_startup_ok ⟨okInit, List.replicate (2 ^ 64) okFrame⟩ sel hsel]
    exact hA.1
  · rw [hA2, List.length_replicate]
    norm_num
  · rw [Run_of_startup_ok ⟨okInit, List.replicate (2 ^ 64 - 1) okFrame⟩ sel hsel]
    exact hB.1
  · rw [hA2, hB2]
    norm_num

/-- C3: `fenceValue` is a 64-bit unsigned counter that starts at 0; in a run
of `K` iterations that all complete, with `K` in the range of the counter
(`K < 2 ^ 64`), it is `j` after the first `j` of them for every `j ≤ K` (so it
never goes down and grows by exactly 1 per completed iteration), it ends at
`K`, and the values passed to `queue->Signal` are `1, 2, ..., K` in this
order; in 64-bit arithmetic the final value is `K % 2 ^ 64`. -/
theorem fenceValue_counts_iterations (init : InitEnv) (frames : List FrameEnv)
    (hinit : ∃ sel, startup init = .ok sel) (hok : ∀ f ∈ frames, f.ok = true) :
    (Run ⟨init, frames⟩).1.fenceValue = frames.length % 2 ^ 64 ∧
    (frames.length < 2 ^ 64 →
      (Run ⟨init, []⟩).1.fenceValue = 0 ∧
      (∀ j, j ≤ frames.length → (Run ⟨init, frames.take j⟩).1.fenceValue = j) ∧
      (∀ j, j < frames.length →
        (Run ⟨init, frames.take (j + 1)⟩).1.fenceValue =
          (Run ⟨init, frames.take j⟩).1.fenceValue + 1) ∧
      (Run ⟨init, frames⟩).1.fenceValue = frames.length ∧
      signalValues (Run ⟨init, frames⟩).1.trace =
        (List.range frames.length).map (fun k => k + 1)) := by
  obtain ⟨sel, hsel⟩ := hinit
  have h0 : LoopState.initial.backBufferIndex < BufferCount := by decide
  have hv : LoopState.initial.fenceValue < 2 ^ 64 := by
    show 0 < 2 ^ 64
    norm_num
  have key : ∀ fs : List FrameEnv, (∀ f ∈ fs, f.ok = true) →
      (Run ⟨init, fs⟩).1.fenceValue = fs.length % 2 ^ 64 := by
    intro fs hfs
    rw [Run_of_startup_ok ⟨init, fs⟩ sel hsel]
    have h := (loop_ok init.rtvHeapBase init.descRtvSz fs LoopState.initial hfs h0 hv).2.1
    rw [h]
    show (0 + fs.length) % 2 ^ 64 = fs.length % 2 ^ 64
    rw [Nat.zero_add]
  have keyTake : ∀ j, j ≤ frames.length → frames.length < 2 ^ 64 →
      (Run ⟨init, frames.take j⟩).1.fenceValue = j := by
    intro j hj hK
    rw [key (frames.take j) (fun f hf => hok f (List.mem_of_mem_take hf))]
    rw [List.length_take, Nat.min_eq_left hj]
    exact Nat.mod_eq_of_lt (by omega)
  refine ⟨key frames hok, fun hK => ⟨?_, fun j hj => keyTake j hj hK, ?_, ?_, ?_⟩⟩
  · rw [Run_of_startup_ok ⟨init, []⟩ sel hsel]
    rfl
  · intro j hj
    rw [keyTake (j + 1) (by omega) hK, keyTake j (by omega) hK]
  · rw [key frames hok]
    exact Nat.mod_eq_of_lt hK
  · rw [Run_of_startup_ok ⟨init, frames⟩ sel hsel]
    obtain ⟨_, _, _, T, hT, _, hS, _, _⟩ :=
      loop_ok init.rtvHeapBase init.descRtvSz frames LoopState.initial hok h0 hv
    rw [hT]
    show signalValues ([] ++ T) = _
    rw [List.nil_append, hS]
    apply List.map_congr_left
    intro k hk
    have hk' : k < frames.length := List.mem_range.mp hk
    show (0 + (k + 1)) % 2 ^ 64 = k + 1
    rw [Nat.zero_add]
    exact Nat.mod_eq_of_lt (by omega)

/-- C3, witness: three completed iterations end with `fenceValue = 3` after
signaling 1, 2, 3. -/
theorem fenceValue_counts_iterations_witness :
    (∃ sel, startup okInit = .ok sel) ∧
    (∀ f ∈ [okFrame, okFrame, okFrame], f.ok = true) ∧
    [okFrame, okFrame, okFrame].length < 2 ^ 64 ∧
    (Run ⟨okInit, [okFrame, okFrame, okFrame]⟩).1.fenceValue = 3 ∧
    signalValues (Run ⟨okInit, [okFrame, okFrame, okFrame]⟩).1.trace = [1, 2, 3] :=
  ⟨okInit_startup, okFrames_ok 3, by decide,
    ((fenceValue_counts_iterations okInit [okFrame, okFrame, okFrame] okInit_startup
      (okFrames_ok 3)).2 (by decide)).2.2.2.1,
    ((fenceValue_counts_iterations okInit [okFrame, okFrame, okFrame] okInit_startup
      (okFrames_ok 3)).2 (by decide)).2.2.2.2⟩

/-! ## Rotation of the back-buffer index -/

/-- C4: the swapchain index starts at 0 and advances by 1 modulo 2 on a
successful `Present` only; then the index read at the start of iteration `k`
is `k % 2` for every iteration whose frame gets presented, and a run of `K`
iterations that all complete presents `K` frames and reads exactly
`0, 1, 0, 1, ...` (`K` values). -/
theorem curFrame_alternates (env : Env) :
    (∀ k, k < presentCount (Run env).1.trace →
      (curFrames (Run env).1.trace)[k]? = some (k % 2)) ∧
    ((∃ sel, startup env.init = .ok sel) → (∀ f ∈ env.frames, f.ok = true) →
      presentCount (Run env).1.trace = env.frames.length ∧
      curFrames (Run env).1.trace = (List.range env.frames.length).map (fun k => k % 2)) := by
  have h0 : LoopState.initial.backBufferIndex < BufferCount := by decide
  constructor
  · intro k hk
    cases hst : startup env.init with
    | error e =>
      rw [Run_of_startup_error env e hst] at hk
      exact absurd hk (Nat.not_lt_zero _)
    | ok sel =>
      rw [Run_of_startup_ok env sel hst] at hk ⊢
      obtain ⟨T, n, r, hT, hC, hP, _⟩ :=
        loop_trace env.init.rtvHeapBase env.init.descRtvSz env.frames LoopState.initial h0
      have hT' : (loop env.init.rtvHeapBase env.init.descRtvSz env.frames
          LoopState.initial).1.trace = T := by
        rw [hT]
        exact List.nil_append T
      rw [hT'] at hk ⊢
      rw [hC]
      have hkn : k < n := Nat.lt_of_lt_of_le hk hP
      rw [List.getElem?_map, List.getElem?_range hkn]
      show some ((0 + k) % BufferCount) = some (k % 2)
      rw [Nat.zero_add]
      rfl
  · rintro ⟨sel, hst⟩ hok
    rw [Run_of_startup_ok env sel hst]
    have hv : LoopState.initial.fenceValue < 2 ^ 64 := by
      show 0 < 2 ^ 64
      norm_num
    obtain ⟨_, _, _, T, hT, hC, _, _, hP⟩ :=
      loop_ok env.init.rtvHeapBase env.init.descRtvSz env.frames LoopState.initial hok h0 hv
    have hT' : (loop env.init.rtvHeapBase env.init.descRtvSz env.frames
        LoopState.initial).1.trace = T := by
      rw [hT]
      exact List.nil_append T
    rw [hT', hP, hC]
    refine ⟨rfl, ?_⟩
    apply List.map_congr_left
    intro k _
    show (0 + k) % BufferCount = k % 2
    rw [Nat.zero_add]
    rfl

/-- C4, witness: three presented frames read the indices 0, 1, 0. -/
theorem curFrame_alternates_witness :
    (∃ sel, startup okInit = .ok sel) ∧
    (∀ f ∈ [okFrame, okFrame, okFrame], f.ok = true) ∧
    2 < presentCount (Run ⟨okInit, [okFrame, okFrame, okFrame]⟩).1.trace ∧
    (curFrames (Run ⟨okInit, [okFrame, okFrame, okFrame]⟩).1.trace)[2]? = some 0 ∧
    curFrames (Run ⟨okInit, [okFrame, okFrame, okFrame]⟩).1.trace = [0, 1, 0] :=
  ⟨okInit_startup, okFrames_ok 3, by decide,
    (curFrame_alternates ⟨okInit, [okFrame, okFrame, okFrame]⟩).1 2 (by decide),
    ((curFrame_alternates ⟨okInit, [okFrame, okFrame, okFrame]⟩).2 okInit_startup
      (okFrames_ok 3)).2⟩

/-! ## The calls of an iteration -/

/-- The whole trace of a run of iterations that all complete: iteration `k`
contributes the calls of `callsOfFrame` for the index and the counter value it
works with. -/
theorem loop_ok_trace (b d : Nat) (frames : List FrameEnv) (s : LoopState)
    (hok : ∀ f ∈ frames, f.ok = true) (hb : s.backBufferIndex < BufferCount) :
    (loop b d frames s).1.trace = s.trace ++
      (List.range frames.length).flatMap (fun k =>
        callsOfFrame b d ((s.backBufferIndex + k) % BufferCount)
          ((s.fenceValue + (k + 1)) % 2 ^ 64)) := by
  induction frames generalizing s with
  | nil => simp [loop]
  | cons f rest ih =>
    have hf : f.ok = true := hok f (List.mem_cons_self _ _)
    have hrest : ∀ g ∈ rest, g.ok = true := fun g hg => hok g (List.mem_cons_of_mem _ hg)
    have hnone : (frame b d f s).2 = none := (frame_none_iff b d f s).mpr hf
    have hfr : (frame b d f s).1 =
        ⟨incr64 s.fenceValue, (s.backBufferIndex + 1) % BufferCount,
          s.trace ++ callsOfFrame b d s.backBufferIndex (incr64 s.fenceValue)⟩ := by
      rw [frame_ok b d f s hf]
      rfl
    rw [loop_continues b d f rest s hnone, hfr,
      ih ⟨incr64 s.fenceValue, (s.backBufferIndex + 1) % BufferCount,
        s.trace ++ callsOfFrame b d s.backBufferIndex (incr64 s.fenceValue)⟩ hrest
        (Nat.mod_lt _ (by decide))]
    simp only [List.length_cons, List.range_succ_eq_map, List.flatMap_cons, List.flatMap_map,
      List.append_assoc, Nat.add_zero, Nat.zero_add]
    rw [Nat.mod_eq_of_lt hb]
    congr 2
    apply congrArg
    funext k
    have h1 : ((s.backBufferIndex + 1) % BufferCount + k) % BufferCount =
        (s.backBufferIndex + (k + 1)) % BufferCount := by
      simp only [BufferCount]
      omega
    show callsOfFrame b d (((s.backBufferIndex + 1) % BufferCount + k) % BufferCount)
        ((incr64 s.fenceValue + (k + 1)) % 2 ^ 64) =
      callsOfFrame b d ((s.backBufferIndex + (k + 1)) % BufferCount)
        ((s.fenceValue + (k + 1 + 1)) % 2 ^ 64)
    rw [h1, incr64_add]

/-- C9: an iteration in which every checked call succeeds issues, for the
index `i` read at its start, exactly: allocator reset `i`, command-list reset
onto allocator `i`, barrier `PRESENT -> RENDER_TARGET` on surface `i`, clear of
the view at `base + stride * i` with the colour 0.7, 1.0, 0.7, 1.0, that view
bound as the one render target without depth target, barrier
`RENDER_TARGET -> PRESENT` on surface `i`, close, submit of one command list,
present with interval 1 and flags 0, signal of the incremented counter, wait
on that value; and it ends without a throw. -/
theorem completed_iteration_calls (rtvHeapBase descRtvSz : Nat) (env : FrameEnv)
    (s : LoopState) (h : env.ok = true) :
    (frame rtvHeapBase descRtvSz env s).2 = none ∧
    issuedBy rtvHeapBase descRtvSz env s =
      [.GetCurrentBackBufferIndex s.backBufferIndex,
       .AllocatorReset s.backBufferIndex,
       .CommandListReset s.backBufferIndex,
       .ResourceBarrier 1 ⟨s.backBufferIndex, .PRESENT, .RENDER_TARGET⟩,
       .ClearRenderTargetView (rtvHandle rtvHeapBase descRtvSz s.backBufferIndex)
         [⟨7, 1⟩, ⟨10, 1⟩, ⟨7, 1⟩, ⟨10, 1⟩] 0,
       .OMSetRenderTargets 1 (rtvHandle rtvHeapBase descRtvSz s.backBufferIndex) false none,
       .ResourceBarrier 1 ⟨s.backBufferIndex, .RENDER_TARGET, .PRESENT⟩,
       .Close,
       .ExecuteCommandLists 1,
       .Present 1 0,
       .Signal ((s.fenceValue + 1) % 2 ^ 64),
       .SetEventOnCompletion ((s.fenceValue + 1) % 2 ^ 64) none] ∧
    (rtvHeapBase + descRtvSz * s.backBufferIndex < 2 ^ 64 →
      rtvHandle rtvHeapBase descRtvSz s.backBufferIndex =
        rtvHeapBase + descRtvSz * s.backBufferIndex) := by
  have hfr := frame_ok rtvHeapBase descRtvSz env s h
  refine ⟨by rw [hfr], ?_, ?_⟩
  · apply issuedBy_eq
    rw [hfr]
    rfl
  · intro hlt
    unfold rtvHandle
    rw [Nat.mod_eq_of_lt (by omega : descRtvSz * s.backBufferIndex < 2 ^ 64),
      Nat.mod_eq_of_lt hlt]

/-- C9, witness: the calls of the first iteration of a run. -/
theorem completed_iteration_calls_witness :
    okFrame.ok = true ∧
    issuedBy 4096 32 okFrame LoopState.initial =
      [.GetCurrentBackBufferIndex 0, .AllocatorReset 0, .CommandListReset 0,
       .ResourceBarrier 1 ⟨0, .PRESENT, .RENDER_TARGET⟩,
       .ClearRenderTargetView 4096 [⟨7, 1⟩, ⟨10, 1⟩, ⟨7, 1⟩, ⟨10, 1⟩] 0,
       .OMSetRenderTargets 1 4096 false none,
       .ResourceBarrier 1 ⟨0, .RENDER_TARGET, .PRESENT⟩,
       .Close, .ExecuteCommandLists 1, .Present 1 0, .Signal 1,
       .SetEventOnCompletion 1 none] :=
  ⟨rfl, (completed_iteration_calls 4096 32 okFrame LoopState.initial rfl).2.1⟩

/-! ## State transitions of the surface -/

/-- C2: an iteration that reaches `Present` (allocator reset and close
succeed) has issued, before the present and in this order, exactly the two
barriers `PRESENT -> RENDER_TARGET` and `RENDER_TARGET -> PRESENT`, both on
surface `curFrame`; it issues no barrier after the present; each of the two
transitions occurs once, no barrier names another surface, and a surface that
was in state `PRESENT` is in state `PRESENT` again when it is presented. -/
theorem transitions_balanced (rtvHeapBase descRtvSz : Nat) (env : FrameEnv) (s : LoopState)
    (hReset : FAILED env.hrAllocatorReset = false) (hClose : FAILED env.hrClose = false) :
    ∃ before after,
      issuedBy rtvHeapBase descRtvSz env s = before ++ .Present 1 0 :: after ∧
      presentCount before = 0 ∧
      barriers before = [⟨s.backBufferIndex, .PRESENT, .RENDER_TARGET⟩,
                         ⟨s.backBufferIndex, .RENDER_TARGET, .PRESENT⟩] ∧
      barriers after = [] ∧
      (barriers before).count ⟨s.backBufferIndex, .PRESENT, .RENDER_TARGET⟩ = 1 ∧
      (barriers before).count ⟨s.backBufferIndex, .RENDER_TARGET, .PRESENT⟩ = 1 ∧
      (∀ x ∈ barriers before, x.pResource = s.backBufferIndex) ∧
      surfaceStateAfter s.backBufferIndex (barriers before) .PRESENT = some .PRESENT := by
  have hpre : ∀ v, barriers ((callsOfFrame rtvHeapBase descRtvSz s.backBufferIndex v).take 9) =
      [⟨s.backBufferIndex, .PRESENT, .RENDER_TARGET⟩,
       ⟨s.backBufferIndex, .RENDER_TARGET, .PRESENT⟩] := by
    intro v
    simp [callsOfFrame, barriers]
  have hfacts : ∀ v,
      presentCount ((callsOfFrame rtvHeapBase descRtvSz s.backBufferIndex v).take 9) = 0 ∧
      barriers ((callsOfFrame rtvHeapBase descRtvSz s.backBufferIndex v).take 9) =
        [⟨s.backBufferIndex, .PRESENT, .RENDER_TARGET⟩,
         ⟨s.backBufferIndex, .RENDER_TARGET, .PRESENT⟩] ∧
      (barriers ((callsOfFrame rtvHeapBase descRtvSz s.backBufferIndex v).take 9)).count
        ⟨s.backBufferIndex, .PRESENT, .RENDER_TARGET⟩ = 1 ∧
      (barriers ((callsOfFrame rtvHeapBase descRtvSz s.backBufferIndex v).take 9)).count
        ⟨s.backBufferIndex, .RENDER_TARGET, .PRESENT⟩ = 1 ∧
      (∀ x ∈ barriers ((callsOfFrame rtvHeapBase descRtvSz s.backBufferIndex v).take 9),
        x.pResource = s.backBufferIndex) ∧
      surfaceStateAfter s.backBufferIndex
        (barriers ((callsOfFrame rtvHeapBase descRtvSz s.backBufferIndex v).take 9))
        .PRESENT = some .PRESENT := by
    intro v
    rw [hpre v]
    refine ⟨by simp [callsOfFrame, presentCount], rfl, ?_, ?_, ?_, ?_⟩
    · simp [List.count_cons]
    · simp [List.count_cons]
    · intro x hx
      simp only [List.mem_cons, List.mem_singleton, List.not_mem_nil, or_false] at hx
      rcases hx with hx | hx <;> rw [hx]
    · simp [surfaceStateAfter, applyBarrier]
  rcases frame_cases rtvHeapBase descRtvSz env s with c | c | c | c | c | c
  · rw [hReset] at c
    exact absurd c.1 (by decide)
  · rw [hClose] at c
    exact absurd c.2.1 (by decide)
  · refine ⟨(callsOfFrame rtvHeapBase descRtvSz s.backBufferIndex (incr64 s.fenceValue)).take 9,
      [], ?_, (hfacts _).1, (hfacts _).2.1, rfl, (hfacts _).2.2⟩
    apply issuedBy_eq
    rw [c.2.2.2]
    rfl
  · refine ⟨(callsOfFrame rtvHeapBase descRtvSz s.backBufferIndex (incr64 s.fenceValue)).take 9,
      [.Signal (incr64 s.fenceValue)], ?_, (hfacts _).1, (hfacts _).2.1, rfl, (hfacts _).2.2⟩
    apply issuedBy_eq
    rw [c.2.2.2.2]
    rfl
  · refine ⟨(callsOfFrame rtvHeapBase descRtvSz s.backBufferIndex (incr64 s.fenceValue)).take 9,
      [.Signal (incr64 s.fenceValue), .SetEventOnCompletion (incr64 s.fenceValue) none],
      ?_, (hfacts _).1, (hfacts _).2.1, rfl, (hfacts _).2.2⟩
    apply issuedBy_eq
    rw [c.2.2.2.2.2]
    rfl
  · refine ⟨(callsOfFrame rtvHeapBase descRtvSz s.backBufferIndex (incr64 s.fenceValue)).take 9,
      [.Signal (incr64 s.fenceValue), .SetEventOnCompletion (incr64 s.fenceValue) none],
      ?_, (hfacts _).1, (hfacts _).2.1, rfl, (hfacts _).2.2⟩
    apply issuedBy_eq
    rw [c.2]
    rfl

/-- C2, witness: the second iteration of a run, on surface 1. -/
theorem transitions_balanced_witness :
    FAILED okFrame.hrAllocatorReset = false ∧ FAILED okFrame.hrClose = false ∧
    ∃ before after,
      issuedBy 4096 32 okFrame ⟨1, 1, []⟩ = before ++ .Present 1 0 :: after ∧
      presentCount before = 0 ∧
      barriers before = [⟨1, .PRESENT, .RENDER_TARGET⟩, ⟨1, .RENDER_TARGET, .PRESENT⟩] ∧
      barriers after = [] ∧
      (barriers before).count ⟨1, .PRESENT, .RENDER_TARGET⟩ = 1 ∧
      (barriers before).count ⟨1, .RENDER_TARGET, .PRESENT⟩ = 1 ∧
      (∀ x ∈ barriers before, x.pResource = 1) ∧
      surfaceStateAfter 1 (barriers before) .PRESENT = some .PRESENT :=
  ⟨rfl, rfl, transitions_balanced 4096 32 okFrame ⟨1, 1, []⟩ rfl rfl⟩

/-! ## The value the wait is keyed to -/

/-- C10, counterexample: in a run of three completed iterations the values
signaled are 1, 2, 3 and the waits are keyed to 1, 2, 3: the third wait is
keyed to 3, the value signaled in the third iteration itself, and not to 1,
the value signaled two submissions before. -/
theorem wait_keyed_to_latest_signal :
    signalValues (Run ⟨okInit, [okFrame, okFrame, okFrame]⟩).1.trace = [1, 2, 3] ∧
    waitValues (Run ⟨okInit, [okFrame, okFrame, okFrame]⟩).1.trace = [1, 2, 3] ∧
    (waitValues (Run ⟨okInit, [okFrame, okFrame, okFrame]⟩).1.trace)[2]? =
      (signalValues (Run ⟨okInit, [okFrame, okFrame, okFrame]⟩).1.trace)[2]? ∧
    (waitValues (Run ⟨okInit, [okFrame, okFrame, okFrame]⟩).1.trace)[2]? ≠
      (signalValues (Run ⟨okInit, [okFrame, okFrame, okFrame]⟩).1.trace)[0]? := by
  decide

/-- C10, amended: an iteration that reaches the wait (allocator reset, close,
present and signal succeed) ends its calls with `Signal v` directly followed
by `SetEventOnCompletion v nullptr` for the same `v`, the counter incremented
in this iteration; and in every run the `j`-th wait is keyed to the `j`-th
value signaled. -/
theorem wait_keyed_to_own_signal (rtvHeapBase descRtvSz : Nat) (env : FrameEnv)
    (s : LoopState) (hReset : FAILED env.hrAllocatorReset = false)
    (hClose : FAILED env.hrClose = false) (hPresent : FAILED env.hrPresent = false)
    (hSignal : FAILED env.hrSignal = false) :
    (∃ before, issuedBy rtvHeapBase descRtvSz env s =
      before ++ [.Signal ((s.fenceValue + 1) % 2 ^ 64),
                 .SetEventOnCompletion ((s.fenceValue + 1) % 2 ^ 64) none] ∧
      signalValues before = [] ∧ waitValues before = []) ∧
    ∀ (run : Env) (j : Nat), j < (waitValues (Run run).1.trace).length →
      (waitValues (Run run).1.trace)[j]? = (signalValues (Run run).1.trace)[j]? := by
  constructor
  · have hlist : ∀ i v, callsOfFrame rtvHeapBase descRtvSz i v =
        (callsOfFrame rtvHeapBase descRtvSz i v).take 10 ++
          [.Signal v, .SetEventOnCompletion v none] := fun _ _ => rfl
    have hfacts : ∀ i v,
        signalValues ((callsOfFrame rtvHeapBase descRtvSz i v).take 10) = [] ∧
        waitValues ((callsOfFrame rtvHeapBase descRtvSz i v).take 10) = [] := fun _ _ => ⟨rfl, rfl⟩
    rcases frame_cases rtvHeapBase descRtvSz env s with c | c | c | c | c | c
    · rw [hReset] at c
      exact absurd c.1 (by decide)
    · rw [hClose] at c
      exact absurd c.2.1 (by decide)
    · rw [hPresent] at c
      exact absurd c.2.2.1 (by decide)
    · rw [hSignal] at c
      exact absurd c.2.2.2.1 (by decide)
    · refine ⟨_, ?_, hfacts s.backBufferIndex (incr64 s.fenceValue)⟩
      apply issuedBy_eq
      rw [c.2.2.2.2.2]
      exact congrArg (s.trace ++ ·) (hlist _ _)
    · refine ⟨_, ?_, hfacts s.backBufferIndex (incr64 s.fenceValue)⟩
      apply issuedBy_eq
      rw [c.2]
      exact congrArg (s.trace ++ ·) (hlist _ _)
  · intro run j hj
    cases hst : startup run.init with
    | error e =>
      rw [Run_of_startup_error run e hst] at hj
      exact absurd hj (Nat.not_lt_zero _)
    | ok sel =>
      rw [Run_of_startup_ok run sel hst] at hj ⊢
      obtain ⟨T, n, r, hT, _, _, hS⟩ :=
        loop_trace run.init.rtvHeapBase run.init.descRtvSz run.frames LoopState.initial
          (by decide)
      have hT' : (loop run.init.rtvHeapBase run.init.descRtvSz run.frames
          LoopState.initial).1.trace = T := by
        rw [hT]
        exact List.nil_append T
      rw [hT'] at hj ⊢
      rw [hS, List.getElem?_append_left hj]

/-- C10, witness of the amended statement: the third iteration of a run. -/
theorem wait_keyed_to_own_signal_witness :
    FAILED okFrame.hrAllocatorReset = false ∧ FAILED okFrame.hrClose = false ∧
    FAILED okFrame.hrPresent = false ∧ FAILED okFrame.hrSignal = false ∧
    ∃ before, issuedBy 4096 32 okFrame ⟨2, 0, []⟩ =
      before ++ [.Signal ((2 + 1) % 2 ^ 64), .SetEventOnCompletion ((2 + 1) % 2 ^ 64) none] ∧
      signalValues before = [] ∧ waitValues before = [] :=
  ⟨rfl, rfl, rfl, rfl, (wait_keyed_to_own_signal 4096 32 okFrame ⟨2, 0, []⟩ rfl rfl rfl rfl).1⟩

/-! ## Failures -/

theorem ThrowIfFailed_error (hr : HRESULT) (e : Thrown) (h : ThrowIfFailed hr = .error e) :
    FAILED hr = true ∧ e = .com_exception hr := by
  unfold ThrowIfFailed at h
  split at h
  · rename_i hf
    exact ⟨hf, by cases h; rfl⟩
  · cases h

/-- The status code of `commandList->Reset` (line 182) has no effect on an
iteration. -/
theorem frame_ignores_commandListReset (b d : Nat) (env : FrameEnv) (s : LoopState)
    (hr : HRESULT) :
    frame b d { env with hrCommandListReset := hr } s = frame b d env s := rfl

/-- C5, the failing input: the command-list reset of the third iteration
returns `E_FAIL`, a failure.  When every other call succeeds, `Run` does not
throw, the third iteration goes on to record, close, submit, present, signal
and wait, and a fourth iteration runs: four presents instead of two.  When the
close of that iteration fails as well, `Run` throws only there, after the four
recording calls and the close were issued. -/
theorem commandListReset_failure_not_raised :
    FAILED E_FAIL = true ∧
    (Run ⟨okInit, [okFrame, okFrame, { okFrame with hrCommandListReset := E_FAIL },
      okFrame]⟩).2 = none ∧
    presentCount (Run ⟨okInit, [okFrame, okFrame,
      { okFrame with hrCommandListReset := E_FAIL }, okFrame]⟩).1.trace = 4 ∧
    issuedBy 4096 32 { okFrame with hrCommandListReset := E_FAIL } ⟨2, 0, []⟩ =
      [.GetCurrentBackBufferIndex 0, .AllocatorReset 0, .CommandListReset 0,
       .ResourceBarrier 1 ⟨0, .PRESENT, .RENDER_TARGET⟩,
       .ClearRenderTargetView 4096 [⟨7, 1⟩, ⟨10, 1⟩, ⟨7, 1⟩, ⟨10, 1⟩] 0,
       .OMSetRenderTargets 1 4096 false none,
       .ResourceBarrier 1 ⟨0, .RENDER_TARGET, .PRESENT⟩,
       .Close, .ExecuteCommandLists 1, .Present 1 0, .Signal 3,
       .SetEventOnCompletion 3 none] ∧
    (frame 4096 32 { okFrame with hrCommandListReset := E_FAIL, hrClose := E_FAIL }
      ⟨2, 0, []⟩).2 = some (.com_exception E_FAIL) ∧
    issuedBy 4096 32 { okFrame with hrCommandListReset := E_FAIL, hrClose := E_FAIL }
      ⟨2, 0, []⟩ =
      [.GetCurrentBackBufferIndex 0, .AllocatorReset 0, .CommandListReset 0,
       .ResourceBarrier 1 ⟨0, .PRESENT, .RENDER_TARGET⟩,
       .ClearRenderTargetView 4096 [⟨7, 1⟩, ⟨10, 1⟩, ⟨7, 1⟩, ⟨10, 1⟩] 0,
       .OMSetRenderTargets 1 4096 false none,
       .ResourceBarrier 1 ⟨0, .RENDER_TARGET, .PRESENT⟩,
       .Close] := by
  decide

/-- The checked calls do stop the run: when the first failure of a run is the
allocator reset or the close of the third iteration, `Run` throws that status
code after exactly two presents. -/
theorem third_iteration_failure_before_present (init : InitEnv) (f1 f2 f3 : FrameEnv)
    (rest : List FrameEnv) (hinit : ∃ sel, startup init = .ok sel)
    (h1 : f1.ok = true) (h2 : f2.ok = true)
    (h3 : FAILED f3.hrAllocatorReset = true ∨ FAILED f3.hrClose = true) :
    presentCount (Run ⟨init, f1 :: f2 :: f3 :: rest⟩).1.trace = 2 ∧
    ∃ hr, FAILED hr = true ∧ (hr = f3.hrAllocatorReset ∨ hr = f3.hrClose) ∧
      (Run ⟨init, f1 :: f2 :: f3 :: rest⟩).2 = some (.com_exception hr) := by
  obtain ⟨sel, hsel⟩ := hinit
  rw [Run_of_startup_ok ⟨init, f1 :: f2 :: f3 :: rest⟩ sel hsel]
  have hok12 : ∀ f ∈ [f1, f2], f.ok = true := by
    intro f hf
    simp only [List.mem_cons, List.mem_singleton, List.not_mem_nil, or_false] at hf
    rcases hf with hf | hf <;> rw [hf] <;> assumption
  obtain ⟨hn, _, _, T, hT, _, _, _, hP⟩ :=
    loop_ok init.rtvHeapBase init.descRtvSz [f1, f2] LoopState.initial hok12 (by decide)
      (by show 0 < 2 ^ 64; norm_num)
  have hsplit : loop init.rtvHeapBase init.descRtvSz (f1 :: f2 :: f3 :: rest)
      LoopState.initial =
      loop init.rtvHeapBase init.descRtvSz (f3 :: rest)
        (loop init.rtvHeapBase init.descRtvSz [f1, f2] LoopState.initial).1 :=
    loop_append init.rtvHeapBase init.descRtvSz [f1, f2] (f3 :: rest) LoopState.initial hn
  have hP2 : presentCount
      (loop init.rtvHeapBase init.descRtvSz [f1, f2] LoopState.initial).1.trace = 2 := by
    rw [hT, presentCount_append, hP]
    rfl
  show presentCount (loop init.rtvHeapBase init.descRtvSz (f1 :: f2 :: f3 :: rest)
      LoopState.initial).1.trace = 2 ∧
    ∃ hr, FAILED hr = true ∧ (hr = f3.hrAllocatorReset ∨ hr = f3.hrClose) ∧
      (loop init.rtvHeapBase init.descRtvSz (f1 :: f2 :: f3 :: rest)
        LoopState.initial).2 = some (.com_exception hr)
  rw [hsplit]
  generalize (loop init.rtvHeapBase init.descRtvSz [f1, f2] LoopState.initial).1 = s2 at hP2 ⊢
  rcases frame_cases init.rtvHeapBase init.descRtvSz f3 s2 with c | c | c | c | c | c
  · rw [loop_stops _ _ f3 rest _ _ (by rw [c.2]), c.2]
    refine ⟨?_, f3.hrAllocatorReset, c.1, Or.inl rfl, rfl⟩
    simp [presentCount_append, presentCount, callsOfFrame, hP2]
  · rw [loop_stops _ _ f3 rest _ _ (by rw [c.2.2]), c.2.2]
    refine ⟨?_, f3.hrClose, c.2.1, Or.inr rfl, rfl⟩
    simp [presentCount_append, presentCount, callsOfFrame, hP2]
  · rcases h3 with h3 | h3
    · rw [c.1] at h3; cases h3
    · rw [c.2.1] at h3; cases h3
  · rcases h3 with h3 | h3
    · rw [c.1] at h3; cases h3
    · rw [c.2.1] at h3; cases h3
  · rcases h3 with h3 | h3
    · rw [c.1] at h3; cases h3
    · rw [c.2.1] at h3; cases h3
  · have hok := c.1
    simp only [FrameEnv.ok, Bool.and_eq_true, Bool.not_eq_true'] at hok
    rcases h3 with h3 | h3
    · rw [hok.1.1.1.1] at h3; cases h3
    · rw [hok.1.1.1.2] at h3; cases h3

/-! ## The process boundary -/

/-- C6: whatever way `Run` ends, `main` returns 0; nothing is written to the
error stream when `Run` returns, and exactly one message when it throws: the
`what()` text of a `std::exception`, or "Unknown error" for any other value. -/
theorem main_returns_zero (ErrorMessage : HRESULT → String) :
    main_try ErrorMessage none = { exitCode := 0, cerr := [] } ∧
    (∀ result, main_try ErrorMessage (some (.com_exception result)) =
      { exitCode := 0, cerr := [com_exception_what ErrorMessage result] }) ∧
    (∀ message, main_try ErrorMessage (some (.runtime_error message)) =
      { exitCode := 0, cerr := [message] }) ∧
    main_try ErrorMessage (some .nonStd) = { exitCode := 0, cerr := ["Unknown error"] } ∧
    (∀ thrown, (main_try ErrorMessage thrown).exitCode = 0 ∧
      ((main_try ErrorMessage thrown).cerr ≠ [] ↔ thrown ≠ none) ∧
      (main_try ErrorMessage thrown).cerr.length = if thrown = none then 0 else 1) ∧
    (∀ env, main ErrorMessage env = main_try ErrorMessage (Run env).2 ∧
      (main ErrorMessage env).exitCode = 0 ∧
      ((main ErrorMessage env).cerr ≠ [] ↔ (Run env).2 ≠ none)) := by
  have hall : ∀ thrown, (main_try ErrorMessage thrown).exitCode = 0 ∧
      ((main_try ErrorMessage thrown).cerr ≠ [] ↔ thrown ≠ none) ∧
      (main_try ErrorMessage thrown).cerr.length = if thrown = none then 0 else 1 := by
    intro thrown
    cases thrown with
    | none => simp [main_try]
    | some e => cases e <;> simp [main_try, Thrown.what]
  refine ⟨rfl, fun _ => rfl, fun _ => rfl, rfl, hall, fun env => ⟨rfl, ?_, ?_⟩⟩
  · exact (hall (Run env).2).1
  · exact (hall (Run env).2).2.1

/-! ## Start-up -/

theorem selectAdapter_error (l : List AdapterEnum) (st : Option Nat × DXGI_ADAPTER_DESC)
    (e : Thrown) (h : selectAdapter l st = .error e) :
    ∃ a ∈ l, FAILED a.hrGetDesc = true ∧ e = .com_exception a.hrGetDesc := by
  induction l generalizing st with
  | nil => cases st; simp [selectAdapter] at h
  | cons cur rest ih =>
    obtain ⟨adapter, adapterDesc⟩ := st
    unfold selectAdapter at h
    split at h
    · rename_i e' he
      obtain ⟨hf, he2⟩ := ThrowIfFailed_error _ _ he
      cases h
      exact ⟨cur, List.mem_cons_self _ _, hf, he2⟩
    · simp only at h
      split at h
      · obtain ⟨a, ha, hf⟩ := ih _ h
        exact ⟨a, List.mem_cons_of_mem _ ha, hf⟩
      · obtain ⟨a, ha, hf⟩ := ih _ h
        exact ⟨a, List.mem_cons_of_mem _ ha, hf⟩

theorem createFrameResources_error (g c : Nat → HRESULT) (l : List Nat) (e : Thrown)
    (h : createFrameResources g c l = .error e) :
    ∃ i ∈ l, ∃ hr ∈ [g i, c i], FAILED hr = true ∧ e = .com_exception hr := by
  induction l with
  | nil => simp [createFrameResources] at h
  | cons i rest ih =>
    unfold createFrameResources at h
    split at h
    · rename_i e' he
      obtain ⟨hf, he2⟩ := ThrowIfFailed_error _ _ he
      cases h
      exact ⟨i, List.mem_cons_self _ _, g i, by simp, hf, he2⟩
    · split at h
      · rename_i e' he
        obtain ⟨hf, he2⟩ := ThrowIfFailed_error _ _ he
        cases h
        exact ⟨i, List.mem_cons_self _ _, c i, by simp, hf, he2⟩
      · obtain ⟨j, hj, hr⟩ := ih h
        exact ⟨j, List.mem_cons_of_mem _ hj, hr⟩

/-- What the start-up throws: the window error, or the status code of a
checked call that failed. -/
theorem startup_error (env : InitEnv) (e : Thrown) (h : startup env = .error e) :
    (env.hwnd = none ∧ e = .runtime_error "Window creation failed") ∨
    ∃ hr ∈ env.checkedResults, FAILED hr = true ∧ e = .com_exception hr := by
  have key : ∀ hr, ThrowIfFailed hr = .error e → hr ∈ env.checkedResults →
      ∃ hr ∈ env.checkedResults, FAILED hr = true ∧ e = .com_exception hr :=
    fun hr he hm => ⟨hr, hm, ThrowIfFailed_error hr e he⟩
  unfold startup at h
  split at h
  · rename_i hw
    left
    cases h
    exact ⟨by simpa using hw, rfl⟩
  · right
    repeat' split at h
    all_goals first
      | cases h; done
      | (cases h
         exact key _ (by assumption) (by simp [InitEnv.checkedResults]))
      | (cases h
         have hsel : selectAdapter env.adapters (none, env.adapterDesc0) = .error e := by
           assumption
         obtain ⟨a, ha, hf, he⟩ := selectAdapter_error _ _ _ hsel
         exact ⟨a.hrGetDesc, by
           simp only [InitEnv.checkedResults, List.mem_append, List.mem_map]
           exact Or.inl (Or.inl (Or.inl (Or.inr ⟨a, ha, rfl⟩))), hf, he⟩)
      | (cases h
         have hcr : createFrameResources env.hrGetBuffer env.hrCreateCommandAllocator
             (List.range BufferCount) = .error e := by
           assumption
         obtain ⟨i, hi, hr, hhr, hf, he⟩ := createFrameResources_error _ _ _ _ hcr
         exact ⟨hr, by
           simp only [InitEnv.checkedResults, List.mem_append, List.mem_flatMap]
           exact Or.inl (Or.inr ⟨i, hi, hhr⟩), hf, he⟩)

/-- A start-up that succeeds yields what the selection loop chose. -/
theorem startup_ok_selected (env : InitEnv) (sel : Option Nat × DXGI_ADAPTER_DESC)
    (h : startup env = .ok sel) :
    selectAdapter env.adapters (none, env.adapterDesc0) = .ok sel := by
  unfold startup at h
  repeat' split at h
  all_goals first
    | cases h; done
    | (cases h
       assumption)

/-! ## What an error carries -/

/-- C7, counterexample: when `CreateWindowEx` returns `nullptr`, `Run` throws
the `std::runtime_error` of line 95, which carries a message and no status
code. -/
theorem window_error_has_no_status_code :
    (Run ⟨{ okInit with hwnd := none }, []⟩).2 =
      some (.runtime_error "Window creation failed") ∧
    Thrown.statusCode (.runtime_error "Window creation failed") = none ∧
    Thrown.what (fun _ => "") (.runtime_error "Window creation failed") =
      some "Window creation failed" := by
  decide

/-- C7, amended: every error `Run` raises from a start-up call or a per-frame
call is a `com_exception` that carries the failing status code, one of those
passed to `ThrowIfFailed`, and the message formatted from it; the error of a
failed window creation carries the message "Window creation failed" and no
status code. -/
theorem Run_error_contents (ErrorMessage : HRESULT → String) (env : Env) (e : Thrown)
    (h : (Run env).2 = some e) :
    (env.init.hwnd = none ∧ e = .runtime_error "Window creation failed" ∧
      e.statusCode = none ∧ e.what ErrorMessage = some "Window creation failed") ∨
    (∃ hr ∈ env.checkedResults, FAILED hr = true ∧ e = .com_exception hr ∧
      e.statusCode = some hr ∧
      e.what ErrorMessage = some (com_exception_what ErrorMessage hr)) := by
  cases hst : startup env.init with
  | error e' =>
    rw [Run_of_startup_error env e' hst] at h
    cases h
    rcases startup_error env.init e hst with ⟨hw, he⟩ | ⟨hr, hm, hf, he⟩
    · left
      subst he
      exact ⟨hw, rfl, rfl, rfl⟩
    · right
      subst he
      exact ⟨hr, List.mem_append_left _ hm, hf, rfl, rfl, rfl⟩
  | ok sel =>
    rw [Run_of_startup_ok env sel hst] at h
    obtain ⟨f, hfm, hr, hhr, hf, he⟩ := loop_thrown _ _ _ _ _ h
    right
    subst he
    refine ⟨hr, ?_, hf, rfl, rfl, rfl⟩
    apply List.mem_append_right
    rw [List.mem_flatMap]
    exact ⟨f, hfm, hhr⟩

/-- C7, witness of the amended statement: the device is removed at the second
present. -/
theorem Run_error_contents_witness :
    (Run ⟨okInit, [okFrame, { okFrame with hrPresent := DXGI_ERROR_DEVICE_REMOVED }]⟩).2 =
      some (.com_exception DXGI_ERROR_DEVICE_REMOVED) ∧
    ((okInit.hwnd = none ∧
        Thrown.com_exception DXGI_ERROR_DEVICE_REMOVED =
          .runtime_error "Window creation failed" ∧
        (Thrown.com_exception DXGI_ERROR_DEVICE_REMOVED).statusCode = none ∧
        (Thrown.com_exception DXGI_ERROR_DEVICE_REMOVED).what (fun _ => "Device removed") =
          some "Window creation failed") ∨
      (∃ hr ∈ Env.checkedResults
          ⟨okInit, [okFrame, { okFrame with hrPresent := DXGI_ERROR_DEVICE_REMOVED }]⟩,
        FAILED hr = true ∧ Thrown.com_exception DXGI_ERROR_DEVICE_REMOVED = .com_exception hr ∧
        (Thrown.com_exception DXGI_ERROR_DEVICE_REMOVED).statusCode = some hr ∧
        (Thrown.com_exception DXGI_ERROR_DEVICE_REMOVED).what (fun _ => "Device removed") =
          some (com_exception_what (fun _ => "Device removed") hr))) :=
  ⟨rfl, Run_error_contents (fun _ => "Device removed")
    ⟨okInit, [okFrame, { okFrame with hrPresent := DXGI_ERROR_DEVICE_REMOVED }]⟩ _ rfl⟩

/-! ## Adapter selection -/

/-- The selection loop once an adapter is held: it keeps an adapter that is
the held one or one of the list, with at least the memory of the held one and
of every adapter of the list. -/
theorem selectAdapter_held (l : List AdapterEnum) (p : Nat) (d : DXGI_ADAPTER_DESC)
    (hdesc : ∀ a ∈ l, FAILED a.hrGetDesc = false) :
    ∃ p' d', selectAdapter l (some p, d) = .ok (some p', d') ∧
      ((p' = p ∧ d' = d) ∨ ∃ a ∈ l, a.pAdapter = p' ∧ a.desc = d') ∧
      d.DedicatedVideoMemory ≤ d'.DedicatedVideoMemory ∧
      ∀ x ∈ l, x.desc.DedicatedVideoMemory ≤ d'.DedicatedVideoMemory := by
  induction l generalizing p d with
  | nil => exact ⟨p, d, rfl, Or.inl ⟨rfl, rfl⟩, Nat.le_refl _, by simp⟩
  | cons cur rest ih =>
    have hcur : FAILED cur.hrGetDesc = false := hdesc cur (List.mem_cons_self _ _)
    have hrest : ∀ a ∈ rest, FAILED a.hrGetDesc = false :=
      fun a ha => hdesc a (List.mem_cons_of_mem _ ha)
    by_cases hgt : cur.desc.DedicatedVideoMemory > d.DedicatedVideoMemory
    · obtain ⟨p', d', h1, h2, h3, h4⟩ := ih cur.pAdapter cur.desc hrest
      refine ⟨p', d', ?_, ?_, by omega, ?_⟩
      · simp [selectAdapter, ThrowIfFailed, hcur, hgt, h1]
      · rcases h2 with ⟨hp, hd⟩ | ⟨a, ha, hpa⟩
        · exact Or.inr ⟨cur, List.mem_cons_self _ _, hp.symm, hd.symm⟩
        · exact Or.inr ⟨a, List.mem_cons_of_mem _ ha, hpa⟩
      · intro x hx
        rcases List.mem_cons.mp hx with hx | hx
        · rw [hx]; exact h3
        · exact h4 x hx
    · obtain ⟨p', d', h1, h2, h3, h4⟩ := ih p d hrest
      refine ⟨p', d', ?_, ?_, h3, ?_⟩
      · simp [selectAdapter, ThrowIfFailed, hcur, hgt, h1]
      · rcases h2 with h2 | ⟨a, ha, hpa⟩
        · exact Or.inl h2
        · exact Or.inr ⟨a, List.mem_cons_of_mem _ ha, hpa⟩
      · intro x hx
        rcases List.mem_cons.mp hx with hx | hx
        · rw [hx]; omega
        · exact h4 x hx

/-- C8: when the factory enumerates at least one adapter and every description
is read successfully, the selection loop ends holding one of the enumerated
adapters, with its description, and no enumerated adapter has more dedicated
video memory; a start-up that succeeds continues with that adapter. -/
theorem selectAdapter_max (adapters : List AdapterEnum) (adapterDesc0 : DXGI_ADAPTER_DESC)
    (hne : adapters ≠ []) (hdesc : ∀ a ∈ adapters, FAILED a.hrGetDesc = false) :
    ∃ a ∈ adapters,
      selectAdapter adapters (none, adapterDesc0) = .ok (some a.pAdapter, a.desc) ∧
      (∀ x ∈ adapters, x.desc.DedicatedVideoMemory ≤ a.desc.DedicatedVideoMemory) ∧
      ∀ init sel, init.adapters = adapters → init.adapterDesc0 = adapterDesc0 →
        startup init = .ok sel → sel = (some a.pAdapter, a.desc) := by
  cases adapters with
  | nil => exact absurd rfl hne
  | cons cur rest =>
    have hcur : FAILED cur.hrGetDesc = false := hdesc cur (List.mem_cons_self _ _)
    have hrest : ∀ a ∈ rest, FAILED a.hrGetDesc = false :=
      fun a ha => hdesc a (List.mem_cons_of_mem _ ha)
    obtain ⟨p', d', h1, h2, h3, h4⟩ := selectAdapter_held rest cur.pAdapter cur.desc hrest
    have hsel : selectAdapter (cur :: rest) (none, adapterDesc0) = .ok (some p', d') := by
      simp [selectAdapter, ThrowIfFailed, hcur, h1]
    have hmax : ∀ x ∈ cur :: rest, x.desc.DedicatedVideoMemory ≤ d'.DedicatedVideoMemory := by
      intro x hx
      rcases List.mem_cons.mp hx with hx | hx
      · rw [hx]; exact h3
      · exact h4 x hx
    have hfin : ∀ a : AdapterEnum, a.pAdapter = p' → a.desc = d' →
        ∀ init sel, init.adapters = cur :: rest → init.adapterDesc0 = adapterDesc0 →
          startup init = .ok sel → sel = (some a.pAdapter, a.desc) := by
      intro a hp hd init sel hA hD hS
      have := startup_ok_selected init sel hS
      rw [hA, hD, hsel] at this
      rw [hp, hd]
      cases this
      rfl
    rcases h2 with ⟨hp, hd⟩ | ⟨a, ha, hp, hd⟩
    · refine ⟨cur, List.mem_cons_self _ _, ?_, ?_, hfin cur hp.symm hd.symm⟩
      · rw [hsel, hp, hd]
      · rw [← hd]; exact hmax
    · refine ⟨a, List.mem_cons_of_mem _ ha, ?_, ?_, hfin a hp hd⟩
      · rw [hsel, hp, hd]
      · rw [hd]; exact hmax

/-- C8, witness: of three adapters with 2, 8 and 4 GiB the second is chosen. -/
theorem selectAdapter_max_witness :
    ([⟨10, S_OK, ⟨"A", 2147483648⟩⟩, ⟨11, S_OK, ⟨"B", 8589934592⟩⟩,
      ⟨12, S_OK, ⟨"C", 4294967296⟩⟩] : List AdapterEnum) ≠ [] ∧
    (∀ a ∈ ([⟨10, S_OK, ⟨"A", 2147483648⟩⟩, ⟨11, S_OK, ⟨"B", 8589934592⟩⟩,
      ⟨12, S_OK, ⟨"C", 4294967296⟩⟩] : List AdapterEnum), FAILED a.hrGetDesc = false) ∧
    selectAdapter [⟨10, S_OK, ⟨"A", 2147483648⟩⟩, ⟨11, S_OK, ⟨"B", 8589934592⟩⟩,
      ⟨12, S_OK, ⟨"C", 4294967296⟩⟩] (none, ⟨"", 0⟩) = .ok (some 11, ⟨"B", 8589934592⟩) ∧
    ∃ a ∈ ([⟨10, S_OK, ⟨"A", 2147483648⟩⟩, ⟨11, S_OK, ⟨"B", 8589934592⟩⟩,
      ⟨12, S_OK, ⟨"C", 4294967296⟩⟩] : List AdapterEnum),
      selectAdapter [⟨10, S_OK, ⟨"A", 2147483648⟩⟩, ⟨11, S_OK, ⟨"B", 8589934592⟩⟩,
        ⟨12, S_OK, ⟨"C", 4294967296⟩⟩] (none, ⟨"", 0⟩) = .ok (some a.pAdapter, a.desc) ∧
      (∀ x ∈ ([⟨10, S_OK, ⟨"A", 2147483648⟩⟩, ⟨11, S_OK, ⟨"B", 8589934592⟩⟩,
        ⟨12, S_OK, ⟨"C", 4294967296⟩⟩] : List AdapterEnum),
        x.desc.DedicatedVideoMemory ≤ a.desc.DedicatedVideoMemory) ∧
      ∀ init sel, init.adapters = [⟨10, S_OK, ⟨"A", 2147483648⟩⟩,
          ⟨11, S_OK, ⟨"B", 8589934592⟩⟩, ⟨12, S_OK, ⟨"C", 4294967296⟩⟩] →
        init.adapterDesc0 = ⟨"", 0⟩ →
        startup init = .ok sel → sel = (some a.pAdapter, a.desc) :=
  ⟨by decide, by decide, rfl,
    selectAdapter_max _ ⟨"", 0⟩ (by decide) (by decide)⟩

namespace Machine

/-! ## The fence at the allocator reset -/

theorem slotInv_step (b d : Nat) (s s' : State) (ev : Event)
    (hinv : SlotInv s) (hstep : step b d s ev = some s') : SlotInv s' := by
  obtain ⟨pc, cf, lp, comp, sub⟩ := s
  obtain ⟨hslots, halt, hpc⟩ := hinv
  simp only at hslots halt hpc
  cases ev with
  | quit q =>
    simp only [step] at hstep
    split at hstep
    · rename_i h
      subst h
      cases hstep
      cases q
      · exact ⟨hslots, halt, hpc⟩
      · exact ⟨hslots, halt, trivial⟩
    · cases hstep
  | gpu v =>
    simp only [step] at hstep
    split at hstep
    · cases hstep
      exact ⟨hslots, halt, by cases pc <;> exact hpc⟩
    · cases hstep
  | cpu hr =>
    cases pc <;> simp only [step, waitMayReturn, if_true] at hstep
    case loopHead => cases hstep
    case returned => cases hstep
    case thrown => cases hstep
    case acquire =>
      cases hstep
      exact ⟨hslots, halt, hpc.1, hpc.2, rfl⟩
    case present =>
      cases hf : FAILED hr <;>
        simp only [checked, issue, ThrowIfFailed, hf, presentIndex, LoopState.log] at hstep <;>
        cases hstep
      · exact ⟨hslots, halt, hpc.1, hpc.2.1, by simp only [Bool.false_eq_true, if_false]; rw [hpc.2.2]⟩
      · exact ⟨hslots, halt, trivial⟩
    case signal =>
      cases hf : FAILED hr <;>
        simp only [checked, issue, ThrowIfFailed, hf, LoopState.log] at hstep <;>
        cases hstep
      · refine ⟨?_, ?_, hpc.1, hpc.2.2, _, _, rfl⟩
        · intro e he
          rcases List.mem_cons.mp he with he | he
          · rw [he]; exact hpc.1
          · exact hslots e he
        · cases sub with
          | nil => trivial
          | cons a rest => exact ⟨fun h => hpc.2.1 h.symm, halt⟩
      · exact ⟨hslots, halt, trivial⟩
    case wait =>
      cases hf : FAILED hr <;>
        simp only [checked, issue, ThrowIfFailed, hf, LoopState.log] at hstep <;>
        cases hstep
      · obtain ⟨hcf, hbb, v, rest, hsub⟩ := hpc
        subst hsub
        refine ⟨hslots, halt, ?_, ?_⟩
        · show lp.backBufferIndex < BufferCount
          rw [hbb]
          exact Nat.mod_lt _ (by decide)
        · show cf ≠ lp.backBufferIndex
          rw [hbb]
          simp only [BufferCount] at hcf ⊢
          omega
      · exact ⟨hslots, halt, trivial⟩
    all_goals
      first
        | (cases hf : FAILED hr <;>
            simp only [checked, issue, ThrowIfFailed, hf, LoopState.log] at hstep <;>
            cases hstep
           · exact ⟨hslots, halt, hpc⟩
           · exact ⟨hslots, halt, trivial⟩)
        | (simp only [issue, LoopState.log] at hstep
           cases hstep
           exact ⟨hslots, halt, hpc⟩)

theorem slotInv_exec (b d : Nat) (events : List Event) (s s' : State)
    (hinv : SlotInv s) (h : exec b d s events = some s') : SlotInv s' := by
  induction events generalizing s with
  | nil =>
    simp only [exec, Option.some.injEq] at h
    rw [← h]
    exact hinv
  | cons ev rest ih =>
    simp only [exec] at h
    split at h
    · cases h
    · rename_i s1 hs1
      exact ih s1 (slotInv_step b d s s1 ev hinv hs1) h

theorem slotInv_start : SlotInv start := by
  refine ⟨?_, trivial, ?_⟩
  · simp [start]
  · simp [start, LoopState.initial, BufferCount, newestNot]

theorem lastSignalFor_two_ago (i : Nat) (l : List (Nat × Nat)) (hi : i < BufferCount)
    (hslots : ∀ e ∈ l, e.1 < BufferCount) (halt : alternates l) (hnew : newestNot i l) :
    lastSignalFor i l = signaledTwoAgo l := by
  match l, hslots, halt, hnew with
  | [], _, _, _ => rfl
  | [(j, v)], _, _, hnew =>
    simp only [newestNot] at hnew
    simp [lastSignalFor, signaledTwoAgo, hnew]
  | (j, v) :: (k, w) :: rest, hslots, halt, hnew =>
    simp only [newestNot] at hnew
    have hj : j < BufferCount := hslots (j, v) (by simp)
    have hk : k < BufferCount := hslots (k, w) (by simp)
    have hjk : j ≠ k := halt.1
    have hki : k = i := by
      simp only [BufferCount] at hi hj hk
      omega
    simp [lastSignalFor, signaledTwoAgo, hnew, hki]

/-- In every execution, the allocator about to be reset was last submitted two
submissions ago: the value its reset has to wait for is the value signaled
then, or 0 when there have been fewer than two submissions. -/
theorem reset_slot_signaled_two_ago (rtvHeapBase descRtvSz : Nat) (events : List Event)
    (s : State) (hexec : exec rtvHeapBase descRtvSz start events = some s)
    (hpc : s.pc = .allocatorReset) :
    lastSignalFor s.curFrame s.submitted = signaledTwoAgo s.submitted := by
  obtain ⟨hslots, halt, hS⟩ :=
    slotInv_exec rtvHeapBase descRtvSz events start s slotInv_start hexec
  simp only [hpc] at hS
  exact lastSignalFor_two_ago _ _ hS.1 hslots halt hS.2.1

/-- The same CPU steps with a GPU that reaches each signaled value before the
next iteration: the fence stands at 2 at the third allocator reset.  Whether
the reset comes after the GPU is decided by the GPU's pace alone. -/
theorem reset_when_gpu_keeps_up :
    exec 4096 32 start eventsToThirdReset = some (stateAtThirdReset 2) ∧
    lastSignalFor (stateAtThirdReset 2).curFrame (stateAtThirdReset 2).submitted ≤
      (stateAtThirdReset 2).completed := by
  refine ⟨rfl, ?_⟩
  decide

/-! ## The transition system runs the loop of `Run` -/

theorem exec_append (b d : Nat) (s : State) (e1 e2 : List Event) :
    exec b d s (e1 ++ e2) = (exec b d s e1).bind (fun s' => exec b d s' e2) := by
  induction e1 generalizing s with
  | nil => rfl
  | cons ev rest ih =>
    simp only [List.cons_append, exec]
    cases step b d s ev with
    | none => rfl
    | some s1 => exact ih s1

/-- One completed iteration of `frame` is an execution of the transition
system: the CPU steps of the iteration, with the loop state of `frame` at
their end. -/
theorem machine_runs_frame (b d : Nat) (env : FrameEnv) (s : State) (hok : env.ok = true)
    (hpc : s.pc = .loopHead) :
    exec b d s (frameEventsIdleGpu env) =
      some { pc := .loopHead, curFrame := s.loop.backBufferIndex,
             loop := (frame b d env s.loop).1,
             completed := s.completed,
             submitted := (s.loop.backBufferIndex, incr64 s.loop.fenceValue) :: s.submitted } := by
  obtain ⟨pc, cf, lp, comp, sub⟩ := s
  simp only at hpc
  subst hpc
  rw [frame_ok b d env lp hok]
  simp only [FrameEnv.ok, Bool.and_eq_true, Bool.not_eq_true'] at hok
  obtain ⟨⟨⟨⟨h1, h2⟩, h3⟩, h4⟩, h5⟩ := hok
  simp [exec, step, frameEventsIdleGpu, checked, issue, ThrowIfFailed, h1, h2, h3, h4, h5,
    LoopState.log, presentIndex, waitMayReturn]

/-- Every run of the loop in which all iterations complete is an execution of
the transition system, ending at the loop head in the same loop state. -/
theorem machine_runs_loop (b d : Nat) (frames : List FrameEnv) (s : State)
    (hok : ∀ f ∈ frames, f.ok = true) (hpc : s.pc = .loopHead) :
    ∃ events s', exec b d s events = some s' ∧ s'.pc = .loopHead ∧
      s'.loop = (loop b d frames s.loop).1 := by
  induction frames generalizing s with
  | nil => exact ⟨[], s, rfl, hpc, rfl⟩
  | cons f rest ih =>
    have hf : f.ok = true := hok f (List.mem_cons_self _ _)
    have hrest : ∀ g ∈ rest, g.ok = true := fun g hg => hok g (List.mem_cons_of_mem _ hg)
    have h1 := machine_runs_frame b d f s hf hpc
    have hnone : (frame b d f s.loop).2 = none := (frame_none_iff b d f s.loop).mpr hf
    obtain ⟨evs, s', h2, h3, h4⟩ :=
      ih ⟨.loopHead, s.loop.backBufferIndex, (frame b d f s.loop).1, s.completed,
          (s.loop.backBufferIndex, incr64 s.loop.fenceValue) :: s.submitted⟩ hrest rfl
    refine ⟨frameEventsIdleGpu f ++ evs, s', ?_, h3, ?_⟩
    · rw [exec_append, h1]
      exact h2
    · rw [h4, loop_continues b d f rest s.loop hnone]

end Machine

end D3D12Repro
